import Mathlib

/-!
Shallow embedding of the FutureBase commerce workflow core
(`src/commerce_workflow.py`, `src/rules/engine.py`) and proofs about it.

Modelling conventions:
* Python `Dict[str, str]` entity maps become insertion-ordered association
  lists (`EntityMap`) with dict-style update (replace in place, append new
  keys at the end).
* Python truthiness of `Optional[str]` values (`None` and `""` are falsy)
  is made explicit via `pyTruthy`.
* External collaborators (memory cache, human-input provider, approval
  provider, executor, verifier, context compiler) are modelled as
  deterministic oracle functions bundled in `Collaborators`; the executor
  oracle receives the full call record (including a per-step attempt
  counter standing for the stateful collaborator's call count).
* The runner is embedded at its default configuration: the optional
  FORCE_RAG / DEEPAGENTS_ENABLED / AUTOGEN_ENABLED toggles default to
  false in `CommerceWorkflowRunner.__init__`, so `_maybe_retrieve_rag`
  returns `""` and `_collect_insights` returns `[]`; a trace recorder is
  present, so every `_record_*` call emits its event.
-/

namespace Commerce

/-- Python truthiness of an `Optional[str]`: `None` and `""` are falsy. -/
def pyTruthy : Option String → Bool
  | none => false
  | some s => s ≠ ""

/-! ### Entity maps (Python `Dict[str, str]`) -/

/-- Insertion-ordered association list standing for a Python `dict`. -/
abbrev EntityMap : Type := List (String × String)

/-- Lookup `m[k]`: first binding wins (a real dict has unique keys). -/
def emLookup : EntityMap → String → Option String
  | [], _ => none
  | (k0, v0) :: rest, k => if k0 = k then some v0 else emLookup rest k

/-- Python `k in m`. -/
def emHasKey (m : EntityMap) (k : String) : Bool :=
  (emLookup m k).isSome

/-- Python `m[k] = v`: replace the binding in place, else append. -/
def emInsert : EntityMap → String → String → EntityMap
  | [], k, v => [(k, v)]
  | (k0, v0) :: rest, k, v =>
      if k0 = k then (k0, v) :: rest else (k0, v0) :: emInsert rest k v

/-! ### Data model (`commerce_workflow.py`, `rules/engine.py`, schemas) -/

/-- Embeds the `WorkflowStep` dataclass. -/
structure WorkflowStep where
  name : String
  description : String
  required_tools : List String := []
  requires_confirmation : Bool := false
  input_fields : List String := []
deriving DecidableEq

/-- Embeds the `RuleDecision` dataclass (`rules/engine.py`). -/
structure RuleDecision where
  allow : Bool := true
  require_approval : Bool := false
  notes : List String := []
  system_instructions : List String := []
  allowed_tools : Option (List String) := none
deriving DecidableEq

/-- Embeds the `PlanStep` pydantic model (`utils/schemas.py`). -/
structure PlanStep where
  step : String
deriving DecidableEq

/-- Embeds the `Plan` pydantic model (`utils/schemas.py`). -/
structure Plan where
  goal : String
  steps : List PlanStep
deriving DecidableEq

/-- Embeds the `ToolResult` pydantic model (`utils/schemas.py`), string fields only. -/
structure ToolResult where
  tool : String
  output : String
deriving DecidableEq

/-- One entry of `ExecutionResult.tool_calls` (a dict naming the tool). -/
structure ToolCall where
  name : String
  args : List (String × String) := []
deriving DecidableEq

/-- Embeds the `ExecutionResult` dataclass (`executor.py`), the fields the runner reads. -/
structure ExecutionResult where
  content : String := ""
  tool_outputs : List ToolResult := []
  error : Option String := none
  tool_calls : List ToolCall := []
deriving DecidableEq

/-- Embeds the `Verification` model (`verifier.py`). -/
structure Verification where
  is_valid : Bool
  notes : String
deriving DecidableEq

/-- Embeds the `InputRequest` dataclass (`human_input.py`). -/
structure InputRequest where
  task : String
  step : String
  fields : List String
  notes : String := ""
deriving DecidableEq

/-- Embeds the `ApprovalRequest` dataclass (`approvals.py`), string preview elided. -/
structure ApprovalRequest where
  task : String
  intent : String
  notes : List String
deriving DecidableEq

/-- Embeds the `ApprovalDecision` dataclass (`approvals.py`). -/
structure ApprovalDecision where
  approved : Bool
  notes : String := ""
deriving DecidableEq

/-! ### Rules engine (`rules/engine.py`) -/

/-- The default `RuleDecision()` the engine starts from. -/
def defaultRuleDecision : RuleDecision := {}

/-- Embeds `_merge_decisions(base, update)` (`rules/engine.py`, lines 70-82). -/
def mergeDecisions (base update : RuleDecision) : RuleDecision :=
  { allow := base.allow && update.allow
    require_approval := base.require_approval || update.require_approval
    notes := base.notes ++ update.notes
    system_instructions := base.system_instructions ++ update.system_instructions
    allowed_tools :=
      match update.allowed_tools with
      | none => base.allowed_tools
      | some u =>
          match base.allowed_tools with
          | none => some u
          | some b => some (b.filter (fun t => t ∈ u)) }

/-- One iteration of the `RulesEngine.evaluate` loop: a `None` outcome is
skipped (`if not outcome: continue`; a dataclass instance is always
truthy), any other outcome is merged. -/
def evalStep (dec : RuleDecision) (outcome : Option RuleDecision) :
    RuleDecision :=
  match outcome with
  | none => dec
  | some u => mergeDecisions dec u

/-- Embeds `RulesEngine.evaluate` over the rules' outcomes, folded from the
default `RuleDecision()`. -/
def evaluate (outcomes : List (Option RuleDecision)) : RuleDecision :=
  outcomes.foldl evalStep defaultRuleDecision

/-! ### Tool policy (`_step_allowed_tools`, `_with_rag`) -/

/-- Embeds `CommerceWorkflowRunner._with_rag`. -/
def withRag (tool_names : List String) : List String :=
  if "rag_tool" ∈ tool_names then tool_names else tool_names ++ ["rag_tool"]

/-- Embeds `CommerceWorkflowRunner._step_allowed_tools`. -/
def stepAllowedTools (step : WorkflowStep) (policy : RuleDecision) :
    Option (List String) :=
  if step.required_tools = [] then none
  else
    match policy.allowed_tools with
    | none => some (withRag step.required_tools)
    | some allowed =>
        some (withRag (step.required_tools.filter (fun t => t ∈ allowed)))

/-! ### Step verification (`_verify_step`) -/

/-- The verifier collaborator as an oracle: `(step_task, content) ↦ verdict`. -/
def VerifierOracle : Type := String → String → Verification

/-- Embeds `CommerceWorkflowRunner._verify_step`: executor error short-circuits,
then the required-tools/no-tool-call check, else delegate to the verifier. -/
def verifyStep (verifier : VerifierOracle) (step : WorkflowStep)
    (step_task : String) (execution : ExecutionResult) : Verification :=
  match execution.error with
  | some e =>
      if e = "" then
        if step.required_tools ≠ [] ∧ execution.tool_calls = [] then
          { is_valid := false, notes := "Required tool call missing." }
        else verifier step_task execution.content
      else { is_valid := false, notes := "Execution error: " ++ e }
  | none =>
      if step.required_tools ≠ [] ∧ execution.tool_calls = [] then
        { is_valid := false, notes := "Required tool call missing." }
      else verifier step_task execution.content

/-! ### Workflow catalog (`_WORKFLOWS`) and plan hints (`_STEP_HINTS`) -/

/-- The `_WORKFLOWS` table, in source order (Python dicts preserve
insertion order). -/
def WORKFLOWS : List (String × List WorkflowStep) :=
  [ ("purchase",
      [ { name := "PRODUCT_SEARCH",
          description := "Search catalog for matching products.",
          required_tools := ["catalog_search_tool"] },
        { name := "INVENTORY_CHECK",
          description := "Validate inventory for shortlisted SKUs.",
          required_tools := ["inventory_check_tool"] },
        { name := "PRICING",
          description := "Fetch pricing and promotions if applicable.",
          required_tools := ["pricing_tool", "promo_tool"] },
        { name := "RECOMMEND",
          description := "Rank and recommend best-fit options." },
        { name := "CART",
          description := "Add selected item to cart and confirm.",
          required_tools := ["cart_add_tool", "cart_view_tool"],
          requires_confirmation := true,
          input_fields := ["user_id"] },
        { name := "PAYMENT",
          description := "Run fraud checks and request payment method confirmation.",
          required_tools := ["fraud_check_tool"],
          requires_confirmation := true,
          input_fields := ["user_id"] },
        { name := "CONFIRM",
          description := "Place the order and provide confirmation.",
          required_tools := ["checkout_tool"],
          requires_confirmation := true,
          input_fields := ["user_id", "payment_method", "address"] } ]),
    ("product_search",
      [ { name := "PRODUCT_SEARCH",
          description := "Search catalog for matching products.",
          required_tools := ["catalog_search_tool"] },
        { name := "RECOMMEND",
          description := "Recommend top matches or alternatives." } ]),
    ("compare_products",
      [ { name := "PRODUCT_SEARCH",
          description := "Search catalog for compared products.",
          required_tools := ["catalog_search_tool"] },
        { name := "RECOMMEND",
          description := "Provide comparison and highlight differences." } ]),
    ("track_order",
      [ { name := "ORDER_STATUS",
          description := "Fetch order status.",
          required_tools := ["order_status_tool"],
          input_fields := ["order_id"] },
        { name := "LOGISTICS",
          description := "Check shipment tracking if available.",
          required_tools := ["logistics_tool"],
          input_fields := ["tracking_id"] } ]),
    ("return_request",
      [ { name := "ORDER_STATUS",
          description := "Validate order eligibility for return.",
          required_tools := ["order_status_tool"],
          input_fields := ["order_id"] },
        { name := "RETURN_CREATE",
          description := "Create a return request with reason.",
          required_tools := ["return_tool"],
          requires_confirmation := true,
          input_fields := ["order_id", "reason"] },
        { name := "REFUND_STATUS",
          description := "Share refund status or next steps.",
          required_tools := ["refund_tool"] } ]),
    ("refund_request",
      [ { name := "ORDER_STATUS",
          description := "Validate order eligibility for refund.",
          required_tools := ["order_status_tool"],
          input_fields := ["order_id"] },
        { name := "REFUND_STATUS",
          description := "Provide refund status and next steps.",
          required_tools := ["refund_tool"] } ]),
    ("reorder",
      [ { name := "ORDER_STATUS",
          description := "Retrieve past order details.",
          required_tools := ["order_status_tool"],
          input_fields := ["order_id"] },
        { name := "REORDER",
          description := "Recreate the order in cart.",
          required_tools := ["reorder_tool", "cart_view_tool"],
          requires_confirmation := true,
          input_fields := ["user_id"] } ]),
    ("support_ticket",
      [ { name := "SUPPORT",
          description := "Create or update a support ticket.",
          required_tools := ["support_tool"],
          requires_confirmation := true,
          input_fields := ["user_id", "subject", "description"] } ]) ]

/-- Embeds `_WORKFLOWS.get(intent, [])`. -/
def workflowsGet (intent : String) : List WorkflowStep :=
  match WORKFLOWS.find? (fun p => p.1 = intent) with
  | some p => p.2
  | none => []

/-- The `_STEP_HINTS` table, in source order. -/
def STEP_HINTS : List (String × String) :=
  [ ("search", "PRODUCT_SEARCH"),
    ("find", "PRODUCT_SEARCH"),
    ("inventory", "INVENTORY_CHECK"),
    ("stock", "INVENTORY_CHECK"),
    ("price", "PRICING"),
    ("offer", "PRICING"),
    ("discount", "PRICING"),
    ("recommend", "RECOMMEND"),
    ("cart", "CART"),
    ("checkout", "CONFIRM"),
    ("payment", "PAYMENT"),
    ("order status", "ORDER_STATUS"),
    ("track", "LOGISTICS"),
    ("return", "RETURN_CREATE"),
    ("refund", "REFUND_STATUS"),
    ("support", "SUPPORT"),
    ("ticket", "SUPPORT") ]

/-- Python substring test `needle in hay`. -/
def containsSub (hay needle : String) : Bool :=
  hay.toList.tails.any (fun t => needle.toList.isPrefixOf t)

/-- Python `str.lower()` (the hints are ASCII, so per-character ASCII
lowercasing is faithful). -/
def strLower (s : String) : String :=
  ⟨s.data.map Char.toLower⟩

/-- Embeds `CommerceWorkflowEngine._match_step_name`: lowercase the phrase and
return the first hint, in table order, occurring as a substring; `""` if
none does. -/
def matchStepName (step_text : String) : String :=
  match STEP_HINTS.find? (fun h => containsSub (strLower step_text) h.1) with
  | some h => h.2
  | none => ""

/-- The loop body accumulator of `_map_plan_steps`. -/
def mapPlanStepsGo (workflow : List WorkflowStep) :
    List PlanStep → List WorkflowStep → List WorkflowStep
  | [], acc => acc
  | p :: rest, acc =>
      let name := matchStepName p.step
      if name = "" then mapPlanStepsGo workflow rest acc
      else
        match workflow.find? (fun entry => entry.name = name) with
        | some ws =>
            if ws ∈ acc then mapPlanStepsGo workflow rest acc
            else mapPlanStepsGo workflow rest (acc ++ [ws])
        | none => mapPlanStepsGo workflow rest acc

/-- Embeds `CommerceWorkflowEngine._map_plan_steps`. -/
def mapPlanSteps (plan : Plan) (intent : String) : List WorkflowStep :=
  let workflow := workflowsGet intent
  match plan.steps with
  | [] => []
  | steps => mapPlanStepsGo workflow steps []

/-- Embeds `CommerceWorkflowEngine._default_workflow`. -/
def defaultWorkflow : List WorkflowStep :=
  [ { name := "PRODUCT_SEARCH", description := "Search catalog.",
      required_tools := ["catalog_search_tool"] },
    { name := "RECOMMEND", description := "Recommend the best options." } ]

/-- The intent aliasing at the top of `CommerceWorkflowEngine.build`. -/
def buildIntent (intent : String) : String :=
  if intent = "order_status" then "track_order" else intent

/-- Embeds `CommerceWorkflowEngine.build`: alias `order_status` to `track_order`,
then `mapped or workflow or default` with Python's or-chain on lists. -/
def build (intent : String) (plan : Plan) : List WorkflowStep :=
  if mapPlanSteps plan (buildIntent intent) ≠ [] then
    mapPlanSteps plan (buildIntent intent)
  else if workflowsGet (buildIntent intent) ≠ [] then
    workflowsGet (buildIntent intent)
  else defaultWorkflow

/-! ### Runner state and instrumentation -/

/-- Embeds the `WorkflowStepState` dataclass. -/
structure WorkflowStepState where
  step : WorkflowStep
  status : String := "pending"
  attempts : Nat := 0
  last_output : String := ""
  verified : Bool := false
  verification_notes : String := ""
  error : Option String := none
deriving DecidableEq

/-- Record of one `executor.execute_detailed` call made by the runner.
`attempt` is the 0-based attempt index within the step's retry loop; it
stands for the stateful executor collaborator's call count. -/
structure ExecCall where
  step_name : String
  attempt : Nat
  step_task : String
  context : String
  allowed_tools : Option (List String)
deriving DecidableEq

/-- Payload of a runner-emitted trace event (`_record_step_event`,
`_record_input_event`, `_record_approval_event`). -/
inductive TraceData where
  | verification (attempts : Nat) (output : String) (verification_notes : String)
  | inputRequest (required : List String) (provided : List (String × String))
  | approval (notes : String)
deriving DecidableEq

/-- Embeds the `TraceEvent` dataclass (`utils/trace_recorder.py`), without timestamps. -/
structure TraceEvent where
  session_id : String
  step : String
  event : String
  status : String
  data : TraceData
deriving DecidableEq

/-- Where a value written into the entity map during a run came from. -/
inductive CollectedSource where
  | cache
  | human
deriving DecidableEq

/-- Observational record of one entity-map write performed by
`_collect_inputs` (a memory-cache hit or an applied human input). -/
structure CollectedEntry where
  source : CollectedSource
  key : String
  value : String
deriving DecidableEq

/-- The external collaborators of `CommerceWorkflowRunner`, as oracles. -/
structure Collaborators where
  getCachedValue : String → Option String
  requestInputs : InputRequest → List (String × String)
  approve : ApprovalRequest → ApprovalDecision
  execute : ExecCall → ExecutionResult
  verify : VerifierOracle
  compileContext : String → String → String → EntityMap → String

/-- The verification trace event `_record_step_event` emits. -/
def verificationEvent (session step_name : String) (st : WorkflowStepState) :
    TraceEvent :=
  { session_id := session, step := step_name, event := "verification",
    status := if st.verified then "success" else "error",
    data := .verification st.attempts st.last_output st.verification_notes }

/-! ### `_collect_inputs` -/

/-- Result of `_collect_inputs`: the updated entity map, the genuinely
missing fields, the emitted trace events, the input requests made, and the
entity-map writes performed. -/
structure CollectOutcome where
  entities : EntityMap
  remaining : List String
  events : List TraceEvent
  inputReqs : List InputRequest
  collected : List CollectedEntry
deriving DecidableEq

/-- First loop of `_collect_inputs`: skip fields already present and
non-empty, fill from the memory cache when its value is truthy, else add
the field to `missing`. -/
def collectPhase1 (C : Collaborators) :
    List String → EntityMap → List String → List CollectedEntry →
    EntityMap × List String × List CollectedEntry
  | [], ents, missing, col => (ents, missing, col)
  | fld :: rest, ents, missing, col =>
      if pyTruthy (emLookup ents fld) then collectPhase1 C rest ents missing col
      else
        match C.getCachedValue fld with
        | some v =>
            if v = "" then collectPhase1 C rest ents (missing ++ [fld]) col
            else
              collectPhase1 C rest (emInsert ents fld v) missing
                (col ++ [⟨.cache, fld, v⟩])
        | none => collectPhase1 C rest ents (missing ++ [fld]) col

/-- Second loop of `_collect_inputs`: apply every truthy provided value
into the entity map (`for field, value in provided.items()`). -/
def applyProvided :
    List (String × String) → EntityMap → List CollectedEntry →
    EntityMap × List CollectedEntry
  | [], ents, col => (ents, col)
  | (fld, v) :: rest, ents, col =>
      if v = "" then applyProvided rest ents col
      else applyProvided rest (emInsert ents fld v) (col ++ [⟨.human, fld, v⟩])

/-- Embeds `CommerceWorkflowRunner._collect_inputs`. The final `remaining` list is
Python's `[field for field in missing if field not in entities]` — a key
presence check, not a truthiness check. -/
def collectInputs (C : Collaborators) (task : String) (step : WorkflowStep)
    (entities : EntityMap) (session : String) : CollectOutcome :=
  let p1 := collectPhase1 C step.input_fields entities [] []
  let ents1 := p1.1
  let missing := p1.2.1
  let col1 := p1.2.2
  if missing = [] then ⟨ents1, [], [], [], col1⟩
  else
    let req : InputRequest := ⟨task, step.name, missing, ""⟩
    let provided := C.requestInputs req
    let ev : TraceEvent :=
      { session_id := session, step := step.name, event := "input_request",
        status := "success", data := .inputRequest missing provided }
    let p2 := applyProvided provided ents1 col1
    ⟨p2.1, missing.filter (fun f => ¬ emHasKey p2.1 f), [ev], [req], p2.2⟩

/-! ### The retry loop and per-step procedure of `run` -/

/-- The retry note computed at the top of each attempt
(`if state.error: retry_note = f"Previous attempt failed: ..."`). -/
def retryNoteOf : Option String → String
  | none => ""
  | some e => if e = "" then "" else "Previous attempt failed: " ++ e

/-- Embeds `_build_step_context` at the default configuration (no forced RAG
context, no sub-agent insights). -/
def buildStepContext (C : Collaborators)
    (task intent step_name retry_note : String) (entities : EntityMap) :
    String :=
  let context := C.compileContext task intent step_name entities
  if retry_note ≠ "" then context ++ "\nRetry note: " ++ retry_note
  else context

/-- The step task string `f"{step.name}: {step.description}\nUser goal: {task}"`. -/
def mkStepTask (step : WorkflowStep) (task : String) : String :=
  step.name ++ ": " ++ step.description ++ "\nUser goal: " ++ task

/-- Result of the bounded retry loop inside `run`. -/
structure AttemptOutcome where
  state : WorkflowStepState
  events : List TraceEvent
  execCalls : List ExecCall
  verified : Bool
deriving DecidableEq

/-- The `for attempt in range(self.max_retries + 1)` loop of `run`,
with `fuel` remaining iterations and `attempt` the 0-based index. -/
def attemptLoop (C : Collaborators) (task intent session : String)
    (step : WorkflowStep) (step_task : String)
    (allowed_tools : Option (List String)) (entities : EntityMap) :
    Nat → Nat → WorkflowStepState → AttemptOutcome
  | 0, _, st => ⟨st, [], [], false⟩
  | fuel + 1, attempt, st =>
      let st1 := { st with attempts := attempt + 1 }
      let retry_note := retryNoteOf st1.error
      let context := buildStepContext C task intent step.name retry_note entities
      let call : ExecCall := ⟨step.name, attempt, step_task, context, allowed_tools⟩
      let ex := C.execute call
      let st2 := { st1 with
        last_output := ex.content, error := ex.error, status := "running" }
      let ver := verifyStep C.verify step step_task ex
      let st3 := { st2 with
        verified := ver.is_valid, verification_notes := ver.notes,
        error := if ver.is_valid then st2.error else some ver.notes }
      let ev := verificationEvent session step.name st3
      if ver.is_valid then ⟨st3, [ev], [call], true⟩
      else
        let st4 := { st3 with status := "retrying" }
        let rest :=
          attemptLoop C task intent session step step_task allowed_tools
            entities fuel (attempt + 1) st4
        ⟨rest.state, ev :: rest.events, call :: rest.execCalls, rest.verified⟩

/-- The execution-and-verification phase of one step of `run`: the retry
loop followed by the final `verified` / `failed` status assignment.
Returns the final state, the emitted events, the executor calls, and the
halt status (`some "failed"` when attempts were exhausted). -/
def execPhase (C : Collaborators) (maxRetries : Nat)
    (task intent session : String) (policy : RuleDecision)
    (step : WorkflowStep) (entities : EntityMap) (st0 : WorkflowStepState) :
    WorkflowStepState × List TraceEvent × List ExecCall × Option String :=
  let step_task := mkStepTask step task
  let allowed_tools := stepAllowedTools step policy
  let ao :=
    attemptLoop C task intent session step step_task allowed_tools entities
      (maxRetries + 1) 0 st0
  if ao.verified then
    ({ ao.state with status := "verified" }, ao.events, ao.execCalls, none)
  else
    ({ ao.state with status := "failed" }, ao.events, ao.execCalls, some "failed")

/-- Everything one iteration of the `for step in steps` loop of `run`
produces. `halt = some s` means the loop breaks with overall status `s`. -/
structure StepOutcome where
  state : WorkflowStepState
  entities : EntityMap
  events : List TraceEvent
  execCalls : List ExecCall
  approvals : List ApprovalRequest
  inputReqs : List InputRequest
  collected : List CollectedEntry
  halt : Option String

/-- One iteration of the step loop of `CommerceWorkflowRunner.run`:
input collection, confirmation gate, then the retry loop. -/
def runStep (C : Collaborators) (maxRetries : Nat)
    (task intent session : String) (policy : RuleDecision)
    (step : WorkflowStep) (entities : EntityMap) : StepOutcome :=
  let st0 : WorkflowStepState := { step := step, status := "running" }
  let co := collectInputs C task step entities session
  if co.remaining ≠ [] then
    let err := "Missing required inputs: " ++ String.intercalate ", " co.remaining
    let st := { st0 with
      status := "failed", error := some err, verification_notes := err }
    ⟨st, co.entities, co.events ++ [verificationEvent session step.name st],
      [], [], co.inputReqs, co.collected, some "blocked"⟩
  else if step.requires_confirmation then
    let req : ApprovalRequest := ⟨task, step.name, [step.description]⟩
    let dec := C.approve req
    let aev : TraceEvent :=
      { session_id := session, step := step.name, event := "approval",
        status := if dec.approved then "success" else "rejected",
        data := .approval dec.notes }
    if dec.approved then
      let ep := execPhase C maxRetries task intent session policy step co.entities st0
      ⟨ep.1, co.entities, co.events ++ [aev] ++ ep.2.1, ep.2.2.1, [req],
        co.inputReqs, co.collected, ep.2.2.2⟩
    else
      let st := { st0 with
        status := "failed", error := some "Approval rejected.",
        verification_notes := "Approval rejected." }
      ⟨st, co.entities,
        co.events ++ [aev, verificationEvent session step.name st],
        [], [req], co.inputReqs, co.collected, some "blocked"⟩
  else
    let ep := execPhase C maxRetries task intent session policy step co.entities st0
    ⟨ep.1, co.entities, co.events ++ ep.2.1, ep.2.2.1, [],
      co.inputReqs, co.collected, ep.2.2.2⟩

/-- The observable outcome of a whole run: the `WorkflowRunResult` fields
(status, step states, entities) plus the instrumentation streams. -/
structure RunOutput where
  status : String
  step_states : List WorkflowStepState
  entities : EntityMap
  trace : List TraceEvent
  execCalls : List ExecCall
  approvals : List ApprovalRequest
  inputReqs : List InputRequest
  collected : List CollectedEntry

/-- The `for step in steps` loop of `run`, threading the entity map. The
overall status starts as `"success"` and is replaced by `"blocked"` or
`"failed"` exactly when an iteration breaks. -/
def runLoop (C : Collaborators) (maxRetries : Nat)
    (task intent session : String) (policy : RuleDecision) :
    List WorkflowStep → EntityMap → RunOutput
  | [], ents => ⟨"success", [], ents, [], [], [], [], []⟩
  | step :: rest, ents =>
      let so := runStep C maxRetries task intent session policy step ents
      match so.halt with
      | some s =>
          ⟨s, [so.state], so.entities, so.events, so.execCalls, so.approvals,
            so.inputReqs, so.collected⟩
      | none =>
          let ro := runLoop C maxRetries task intent session policy rest so.entities
          ⟨ro.status, so.state :: ro.step_states, ro.entities,
            so.events ++ ro.trace, so.execCalls ++ ro.execCalls,
            so.approvals ++ ro.approvals, so.inputReqs ++ ro.inputReqs,
            so.collected ++ ro.collected⟩

/-- Embeds `CommerceWorkflowRunner.run`. The caller's entity dict is copied
(`runtime_entities = dict(entities or {})`) before any write. -/
def run (C : Collaborators) (maxRetries : Nat) (task intent : String)
    (steps : List WorkflowStep) (policy : RuleDecision) (session : String)
    (entities : EntityMap) : RunOutput :=
  runLoop C maxRetries task intent session policy steps entities

/-! ### Concrete collaborator bundles used to instantiate the theorems -/

/-- Happy-path collaborators: empty memory cache, input provider returning
nothing, auto-approval, an executor that answers and calls a tool, a
verifier that accepts. -/
def oracleHappy : Collaborators :=
  { getCachedValue := fun _ => none
    requestInputs := fun _ => []
    approve := fun _ => ⟨true, "Auto-approved."⟩
    execute := fun _ => { content := "ok", tool_calls := [⟨"some_tool", []⟩] }
    verify := fun _ _ => ⟨true, "looks good"⟩
    compileContext := fun _ _ _ _ => "ctx" }

/-- Like `oracleHappy` but the verifier always rejects. -/
def oracleNeverVerifies : Collaborators :=
  { oracleHappy with verify := fun _ _ => ⟨false, "not good enough"⟩ }

/-- Like `oracleHappy` but the approval provider always rejects. -/
def oracleRejects : Collaborators :=
  { oracleHappy with approve := fun _ => ⟨false, "Rejected by operator."⟩ }

/-- The retry-note chaining relation between two consecutive executor
calls of one step: the later call's context is the base context extended
with a retry note carrying the verification notes computed from the
earlier call's execution. -/
def retryChain (C : Collaborators) (task intent : String)
    (step : WorkflowStep) (step_task : String) (ents : EntityMap)
    (c1 c2 : ExecCall) : Prop :=
  c2.context = buildStepContext C task intent step.name
    (retryNoteOf (some (verifyStep C.verify step step_task
      (C.execute c1)).notes)) ents

/-- Replay a list of recorded entity-map writes onto a map. -/
def applyCollected (m : EntityMap) (l : List CollectedEntry) : EntityMap :=
  l.foldl (fun acc e => emInsert acc e.key e.value) m

/-! ## Theorems -/

/-! ### Tool policy (`_step_allowed_tools`) -/

lemma rag_mem_withRag (l : List String) : "rag_tool" ∈ withRag l := by
  unfold withRag
  split
  · assumption
  · simp

lemma mem_withRag {t : String} {l : List String} :
    t ∈ withRag l ↔ t ∈ l ∨ t = "rag_tool" := by
  unfold withRag
  split
  · rename_i hmem
    constructor
    · exact Or.inl
    · rintro (h | rfl)
      · exact h
      · exact hmem
  · simp

lemma withRag_nil : withRag [] = ["rag_tool"] := by
  unfold withRag
  simp

/-- C4: for a step with required tools and a policy with an explicit
allowlist, the effective allowed-tool set is a subset of the step's
required tools plus the retrieval tool; when the allowlist is disjoint
from the required tools it is exactly `["rag_tool"]`. -/
theorem C4_allowlist_only_narrows (step : WorkflowStep)
    (policy : RuleDecision) (wl : List String)
    (hreq : step.required_tools ≠ []) (hwl : policy.allowed_tools = some wl) :
    ∃ l, stepAllowedTools step policy = some l ∧
      (∀ t ∈ l, t ∈ step.required_tools ∨ t = "rag_tool") ∧
      ((∀ t ∈ step.required_tools, t ∉ wl) → l = ["rag_tool"]) := by
  refine ⟨withRag (step.required_tools.filter (fun t => t ∈ wl)), ?_, ?_, ?_⟩
  · unfold stepAllowedTools
    rw [if_neg hreq, hwl]
  · intro t ht
    rcases mem_withRag.mp ht with h | h
    · exact Or.inl (List.mem_of_mem_filter h)
    · exact Or.inr h
  · intro hdisj
    have hfil : step.required_tools.filter (fun t => t ∈ wl) = [] := by
      rw [List.filter_eq_nil_iff]
      intro t ht
      simpa using hdisj t ht
    rw [hfil, withRag_nil]

/-- Witness for C4 at the PRICING step against a disjoint allowlist. -/
theorem C4_allowlist_only_narrows_witness :
    (({ name := "PRICING", description := "d",
        required_tools := ["pricing_tool", "promo_tool"] } :
          WorkflowStep).required_tools ≠ []) ∧
    ∃ l,
      stepAllowedTools
        { name := "PRICING", description := "d",
          required_tools := ["pricing_tool", "promo_tool"] }
        { allowed_tools := some ["other_tool"] } = some l ∧
      (∀ t ∈ l,
        t ∈ ["pricing_tool", "promo_tool"] ∨ t = "rag_tool") ∧
      ((∀ t ∈ ["pricing_tool", "promo_tool"], t ∉ ["other_tool"]) →
        l = ["rag_tool"]) :=
  ⟨by decide,
    C4_allowlist_only_narrows
      { name := "PRICING", description := "d",
        required_tools := ["pricing_tool", "promo_tool"] }
      { allowed_tools := some ["other_tool"] }
      ["other_tool"] (by decide) rfl⟩

/-- C5: a step with no required tools gets `None` (unrestricted), and
whenever `_step_allowed_tools` does return a list, `rag_tool` is in it. -/
theorem C5_rag_always_appended (step : WorkflowStep) (policy : RuleDecision) :
    (step.required_tools = [] → stepAllowedTools step policy = none) ∧
    (∀ l, stepAllowedTools step policy = some l → "rag_tool" ∈ l) := by
  constructor
  · intro h
    unfold stepAllowedTools
    rw [if_pos h]
  · intro l hl
    unfold stepAllowedTools at hl
    split at hl
    · exact absurd hl (by simp)
    · cases hpol : policy.allowed_tools with
      | none =>
          rw [hpol] at hl
          cases hl
          exact rag_mem_withRag _
      | some wl =>
          rw [hpol] at hl
          cases hl
          exact rag_mem_withRag _

/-- Witness for C5 at the RECOMMEND step (no tools, unrestricted) and the
PRODUCT_SEARCH step (restriction list contains rag_tool). -/
theorem C5_rag_always_appended_witness :
    stepAllowedTools
      { name := "RECOMMEND", description := "d" } {} = none ∧
    "rag_tool" ∈ ["catalog_search_tool", "rag_tool"] :=
  ⟨(C5_rag_always_appended { name := "RECOMMEND", description := "d" } {}).1
      rfl,
    (C5_rag_always_appended
        { name := "PRODUCT_SEARCH", description := "d",
          required_tools := ["catalog_search_tool"] } {}).2
      ["catalog_search_tool", "rag_tool"] rfl⟩

/-! ### Step verification (`_verify_step`) -/

/-- Normal form of `_verify_step`: executor-error short-circuit, then the
required-tools gate, then delegation to the verifier. -/
lemma verifyStep_eq (v : VerifierOracle) (step : WorkflowStep)
    (step_task : String) (ex : ExecutionResult) :
    verifyStep v step step_task ex =
      if pyTruthy ex.error then
        { is_valid := false,
          notes := "Execution error: " ++ ex.error.getD "" }
      else if step.required_tools ≠ [] ∧ ex.tool_calls = [] then
        { is_valid := false, notes := "Required tool call missing." }
      else v step_task ex.content := by
  unfold verifyStep
  cases hE : ex.error with
  | none => simp [pyTruthy]
  | some e =>
      by_cases he : e = ""
      · subst he
        simp [pyTruthy]
      · simp [pyTruthy, he]

/-- C6: a step with required tools whose execution made no tool call fails
verification no matter what the verifier would say (the verifier is not
consulted: the verdict is the same for every verifier oracle); the notes
carry the executor error when one was reported, else
"Required tool call missing."; and only with no executor error and either
no required tools or some tool call is the verdict delegated. -/
theorem C6_missing_tool_call_fails (step : WorkflowStep) (step_task : String)
    (ex : ExecutionResult) :
    (step.required_tools ≠ [] → ex.tool_calls = [] →
      ∀ v w : VerifierOracle,
        (verifyStep v step step_task ex).is_valid = false ∧
        verifyStep v step step_task ex = verifyStep w step step_task ex ∧
        (∀ e, ex.error = some e → e ≠ "" →
          (verifyStep v step step_task ex).notes = "Execution error: " ++ e) ∧
        (pyTruthy ex.error = false →
          (verifyStep v step step_task ex).notes =
            "Required tool call missing.")) ∧
    (∀ v : VerifierOracle, pyTruthy ex.error = false →
      (step.required_tools = [] ∨ ex.tool_calls ≠ []) →
      verifyStep v step step_task ex = v step_task ex.content) := by
  constructor
  · intro hreq hcalls v w
    by_cases he : pyTruthy ex.error
    · rw [verifyStep_eq, if_pos he, verifyStep_eq, if_pos he]
      refine ⟨rfl, rfl, ?_, ?_⟩
      · intro e herr _
        rw [herr]
        rfl
      · intro hfalse
        rw [hfalse] at he
        exact absurd he (by simp)
    · rw [verifyStep_eq, if_neg he, if_pos ⟨hreq, hcalls⟩,
        verifyStep_eq, if_neg he, if_pos ⟨hreq, hcalls⟩]
      refine ⟨rfl, rfl, ?_, fun _ => rfl⟩
      intro e herr hne
      rw [herr] at he
      simp [pyTruthy] at he
      exact absurd he hne
  · intro v htruthy hdeleg
    have hcond : ¬(step.required_tools ≠ [] ∧ ex.tool_calls = []) := by
      rcases hdeleg with h | h
      · exact fun hc => hc.1 h
      · exact fun hc => h hc.2
    rw [verifyStep_eq, if_neg (by rw [htruthy]; exact Bool.false_ne_true),
      if_neg hcond]

/-- Witness for C6: ORDER_STATUS-like step, executor answered in plain
text without calling a tool and without reporting an error. -/
theorem C6_missing_tool_call_fails_witness :
    (verifyStep (fun _ _ => ⟨true, "verifier would pass"⟩)
        { name := "ORDER_STATUS", description := "d",
          required_tools := ["order_status_tool"] }
        "t" { content := "plain text" }).is_valid = false ∧
    (verifyStep (fun _ _ => ⟨true, "verifier would pass"⟩)
        { name := "ORDER_STATUS", description := "d",
          required_tools := ["order_status_tool"] }
        "t" { content := "plain text" }).notes =
      "Required tool call missing." :=
  ⟨((C6_missing_tool_call_fails
        { name := "ORDER_STATUS", description := "d",
          required_tools := ["order_status_tool"] }
        "t" { content := "plain text" }).1 (by decide) rfl
      (fun _ _ => ⟨true, "verifier would pass"⟩)
      (fun _ _ => ⟨false, "other verifier"⟩)).1,
    ((C6_missing_tool_call_fails
        { name := "ORDER_STATUS", description := "d",
          required_tools := ["order_status_tool"] }
        "t" { content := "plain text" }).1 (by decide) rfl
      (fun _ _ => ⟨true, "verifier would pass"⟩)
      (fun _ _ => ⟨false, "other verifier"⟩)).2.2.2 rfl⟩

/-! ### Rules engine merge (`_merge_decisions`, `RulesEngine.evaluate`) -/

lemma foldl_evalStep_allow (l : List (Option RuleDecision))
    (acc : RuleDecision) :
    (l.foldl evalStep acc).allow =
      (acc.allow && (l.filterMap id).all (fun d => d.allow)) := by
  induction l generalizing acc with
  | nil => simp
  | cons o rest ih =>
      cases o with
      | none => simp [evalStep, ih]
      | some u => simp [evalStep, ih, mergeDecisions, Bool.and_assoc]

lemma foldl_evalStep_approval (l : List (Option RuleDecision))
    (acc : RuleDecision) :
    (l.foldl evalStep acc).require_approval =
      (acc.require_approval ||
        (l.filterMap id).any (fun d => d.require_approval)) := by
  induction l generalizing acc with
  | nil => simp
  | cons o rest ih =>
      cases o with
      | none => simp [evalStep, ih]
      | some u => simp [evalStep, ih, mergeDecisions, Bool.or_assoc]

lemma foldl_evalStep_notes (l : List (Option RuleDecision))
    (acc : RuleDecision) :
    (l.foldl evalStep acc).notes =
      acc.notes ++ ((l.filterMap id).map (fun d => d.notes)).flatten := by
  induction l generalizing acc with
  | nil => simp
  | cons o rest ih =>
      cases o with
      | none => simp [evalStep, ih]
      | some u => simp [evalStep, ih, mergeDecisions]

lemma foldl_evalStep_instructions (l : List (Option RuleDecision))
    (acc : RuleDecision) :
    (l.foldl evalStep acc).system_instructions =
      acc.system_instructions ++
        ((l.filterMap id).map (fun d => d.system_instructions)).flatten := by
  induction l generalizing acc with
  | nil => simp
  | cons o rest ih =>
      cases o with
      | none => simp [evalStep, ih]
      | some u => simp [evalStep, ih, mergeDecisions]

/-- C7: the merged decision is the AND of the allow flags, the OR of the
approval flags, the order-preserving concatenations of notes and system
instructions; and one `_merge_decisions` step combines allowlists by
intersection when both sides have one, else takes whichever side has one,
staying `none` when neither does. -/
theorem C7_merge_semantics (outcomes : List (Option RuleDecision)) :
    (evaluate outcomes).allow =
      (outcomes.filterMap id).all (fun d => d.allow) ∧
    (evaluate outcomes).require_approval =
      (outcomes.filterMap id).any (fun d => d.require_approval) ∧
    (evaluate outcomes).notes =
      ((outcomes.filterMap id).map (fun d => d.notes)).flatten ∧
    (evaluate outcomes).system_instructions =
      ((outcomes.filterMap id).map (fun d => d.system_instructions)).flatten ∧
    (∀ base update : RuleDecision,
      (mergeDecisions base update).allowed_tools =
        match base.allowed_tools, update.allowed_tools with
        | some b, some u => some (b.filter (fun t => t ∈ u))
        | some b, none => some b
        | none, some u => some u
        | none, none => none) := by
  refine ⟨?_, ?_, ?_, ?_, ?_⟩
  · rw [evaluate, foldl_evalStep_allow]
    simp [defaultRuleDecision]
  · rw [evaluate, foldl_evalStep_approval]
    simp [defaultRuleDecision]
  · rw [evaluate, foldl_evalStep_notes]
    simp [defaultRuleDecision]
  · rw [evaluate, foldl_evalStep_instructions]
    simp [defaultRuleDecision]
  · intro base update
    unfold mergeDecisions
    cases update.allowed_tools with
    | none => cases base.allowed_tools <;> rfl
    | some u => cases base.allowed_tools <;> rfl

/-! ### Sequencer (`CommerceWorkflowEngine.build`) -/

/-- Every catalog sequence in `_WORKFLOWS` has pairwise-distinct step names. -/
lemma workflows_names_nodup :
    ∀ p ∈ WORKFLOWS, ((p.2.map (fun s => s.name)).Nodup) := by decide

lemma workflowsGet_names_nodup (intent : String) :
    ((workflowsGet intent).map (fun s => s.name)).Nodup := by
  unfold workflowsGet
  cases h : WORKFLOWS.find? (fun p => p.1 = intent) with
  | none => simp
  | some p => exact workflows_names_nodup p (List.mem_of_find?_eq_some h)

/-- In a list with pairwise-distinct names, equal names force equal steps. -/
lemma eq_of_name_eq_of_names_nodup :
    ∀ {wf : List WorkflowStep}, ((wf.map (fun s => s.name)).Nodup) →
      ∀ a ∈ wf, ∀ b ∈ wf, a.name = b.name → a = b := by
  intro wf
  induction wf with
  | nil => intro _ a ha; exact absurd ha (List.not_mem_nil a)
  | cons w tl ih =>
      intro hnd a ha b hb hab
      rw [List.map_cons, List.nodup_cons] at hnd
      rcases List.mem_cons.mp ha with ha1 | ha1
      · rcases List.mem_cons.mp hb with hb1 | hb1
        · rw [ha1, hb1]
        · exact ((ha1 ▸ hnd.1)
            (List.mem_map.mpr ⟨b, hb1, hab.symm⟩)).elim
      · rcases List.mem_cons.mp hb with hb1 | hb1
        · exact ((hb1 ▸ hnd.1)
            (List.mem_map.mpr ⟨a, ha1, hab⟩)).elim
        · exact ih hnd.2 a ha1 b hb1 hab

lemma names_nodup_of_nodup_of_subset {wf : List WorkflowStep} :
    ∀ {l : List WorkflowStep}, ((wf.map (fun s => s.name)).Nodup) →
      (∀ x ∈ l, x ∈ wf) → l.Nodup → ((l.map (fun s => s.name)).Nodup) := by
  intro l
  induction l with
  | nil => intro _ _ _; simp
  | cons x tl ih =>
      intro hwf hsub hnd
      rw [List.nodup_cons] at hnd
      rw [List.map_cons, List.nodup_cons]
      constructor
      · intro hx
        rcases List.mem_map.mp hx with ⟨b, hbtl, hbeq⟩
        have hbx : b = x :=
          eq_of_name_eq_of_names_nodup hwf b
            (hsub b (List.mem_cons_of_mem x hbtl)) x
            (hsub x (List.mem_cons_self x tl)) hbeq
        exact hnd.1 (hbx ▸ hbtl)
      · exact ih hwf (fun y hy => hsub y (List.mem_cons_of_mem x hy)) hnd.2

/-- The accumulator loop of `_map_plan_steps` only appends steps of the
catalog sequence and never introduces duplicates. -/
lemma mapPlanStepsGo_subset_nodup (wf : List WorkflowStep) :
    ∀ (ps : List PlanStep) (acc : List WorkflowStep),
      (∀ x ∈ acc, x ∈ wf) → acc.Nodup →
      (∀ x ∈ mapPlanStepsGo wf ps acc, x ∈ wf) ∧
        (mapPlanStepsGo wf ps acc).Nodup := by
  intro ps
  induction ps with
  | nil => intro acc hsub hnd; exact ⟨hsub, hnd⟩
  | cons p rest ih =>
      intro acc hsub hnd
      unfold mapPlanStepsGo
      by_cases hname : matchStepName p.step = ""
      · rw [if_pos hname]
        exact ih acc hsub hnd
      · rw [if_neg hname]
        split
        · rename_i ws hfind
          by_cases hmem : ws ∈ acc
          · rw [if_pos hmem]
            exact ih acc hsub hnd
          · rw [if_neg hmem]
            refine ih (acc ++ [ws]) ?_ ?_
            · intro x hx
              rcases List.mem_append.mp hx with hx | hx
              · exact hsub x hx
              · rw [List.mem_singleton.mp hx]
                exact List.mem_of_find?_eq_some hfind
            · rw [List.nodup_append]
              refine ⟨hnd, List.nodup_singleton ws, ?_⟩
              intro a ha hb
              rw [List.mem_singleton.mp hb] at ha
              exact hmem ha
        · exact ih acc hsub hnd

/-- Each mapped step belongs to the intent's catalog and the mapped list
has no duplicates. -/
lemma mapPlanSteps_subset_nodup (plan : Plan) (intent : String) :
    (∀ x ∈ mapPlanSteps plan intent, x ∈ workflowsGet intent) ∧
      (mapPlanSteps plan intent).Nodup := by
  unfold mapPlanSteps
  cases plan.steps with
  | nil => simp
  | cons p rest =>
      exact mapPlanStepsGo_subset_nodup (workflowsGet intent) (p :: rest) []
        (by intro x hx; exact absurd hx (List.not_mem_nil x)) List.nodup_nil

/-- C8: the sequencer prefers the plan-mapped list when non-empty;
whenever the plan-mapped list is empty — in particular for an empty plan,
but also for a non-empty plan none of whose phrases maps — it falls back
to the full catalog sequence for the (alias-normalized) intent, or to the
two-step default when the intent has no catalog; and the result never
contains duplicate step names. -/
theorem C8_build_resolution (intent : String) (plan : Plan) :
    (mapPlanSteps plan (buildIntent intent) = [] →
      build intent plan =
        (if workflowsGet (buildIntent intent) = [] then defaultWorkflow
          else workflowsGet (buildIntent intent))) ∧
    (plan.steps = [] → mapPlanSteps plan (buildIntent intent) = []) ∧
    (mapPlanSteps plan (buildIntent intent) ≠ [] →
      build intent plan = mapPlanSteps plan (buildIntent intent)) ∧
    ((build intent plan).map (fun s => s.name)).Nodup := by
  refine ⟨?_, ?_, ?_, ?_⟩
  · intro hmap
    unfold build
    rw [if_neg (not_not_intro hmap)]
    by_cases hwf : workflowsGet (buildIntent intent) = []
    · simp [hwf]
    · simp [hwf]
  · intro hempty
    unfold mapPlanSteps
    rw [hempty]
  · intro hmap
    unfold build
    rw [if_pos hmap]
  · unfold build
    by_cases hmap : mapPlanSteps plan (buildIntent intent) = []
    · rw [if_neg (not_not_intro hmap)]
      by_cases hwf : workflowsGet (buildIntent intent) = []
      · rw [if_neg (not_not_intro hwf)]
        decide
      · rw [if_pos hwf]
        exact workflowsGet_names_nodup _
    · rw [if_pos hmap]
      have h := mapPlanSteps_subset_nodup plan (buildIntent intent)
      exact names_nodup_of_nodup_of_subset (workflowsGet_names_nodup _) h.1 h.2

/-- Witness for C8: a non-empty plan none of whose phrases matches a hint
("look for shoes") falls back to the full purchase catalog, an empty plan
maps to the empty list, and the phrase "Search for shoes" resolves to the
mapped list. -/
theorem C8_build_resolution_witness :
    build "purchase" ⟨"g", [⟨"look for shoes"⟩]⟩ = workflowsGet "purchase" ∧
    mapPlanSteps ⟨"g", []⟩ (buildIntent "purchase") = [] ∧
    build "purchase" ⟨"g", [⟨"Search for shoes"⟩]⟩ =
      mapPlanSteps ⟨"g", [⟨"Search for shoes"⟩]⟩ (buildIntent "purchase") := by
  refine ⟨?_, ?_, ?_⟩
  · have h := (C8_build_resolution "purchase"
      ⟨"g", [⟨"look for shoes"⟩]⟩).1 (by decide)
    rw [h]
    decide
  · exact (C8_build_resolution "purchase" ⟨"g", []⟩).2.1 rfl
  · exact (C8_build_resolution "purchase" ⟨"g", [⟨"Search for shoes"⟩]⟩).2.2.1
      (by decide)

/-! ### Runner invariants -/

section RunnerProofs

variable (C : Collaborators) (maxRetries : Nat) (task intent session : String)
  (policy : RuleDecision)

lemma attemptLoop_state_step (step : WorkflowStep) (step_task : String)
    (allowed_tools : Option (List String)) (ents : EntityMap) :
    ∀ (fuel attempt : Nat) (st : WorkflowStepState),
      (attemptLoop C task intent session step step_task allowed_tools ents
          fuel attempt st).state.step = st.step := by
  intro fuel
  induction fuel with
  | zero => intro attempt st; rfl
  | succ n ih =>
      intro attempt st
      simp only [attemptLoop]
      split
      · rfl
      · simpa using ih _ _

lemma execPhase_state_step (step : WorkflowStep) (ents : EntityMap)
    (st0 : WorkflowStepState) :
    (execPhase C maxRetries task intent session policy step ents st0).1.step =
      st0.step := by
  unfold execPhase
  simp only []
  split
  · exact attemptLoop_state_step C task intent session step _ _ ents _ _ _
  · exact attemptLoop_state_step C task intent session step _ _ ents _ _ _

lemma execPhase_halt_none (step : WorkflowStep) (ents : EntityMap)
    (st0 : WorkflowStepState) :
    (execPhase C maxRetries task intent session policy step ents st0).2.2.2 =
        none →
      (execPhase C maxRetries task intent session policy step ents st0).1.status =
        "verified" := by
  unfold execPhase
  simp only []
  split
  · intro _; rfl
  · intro h; exact absurd h (by simp)

lemma execPhase_halt_some (step : WorkflowStep) (ents : EntityMap)
    (st0 : WorkflowStepState) (s : String) :
    (execPhase C maxRetries task intent session policy step ents st0).2.2.2 =
        some s →
      s = "failed" ∧
        (execPhase C maxRetries task intent session policy step ents
            st0).1.status = "failed" := by
  unfold execPhase
  simp only []
  split
  · intro h; exact absurd h (by simp)
  · intro h
    cases h
    exact ⟨rfl, rfl⟩

lemma runStep_state_step (step : WorkflowStep) (ents : EntityMap) :
    (runStep C maxRetries task intent session policy step ents).state.step =
      step := by
  unfold runStep
  simp only []
  split
  · rfl
  · split
    · split
      · exact execPhase_state_step C maxRetries task intent session policy
          step _ _
      · rfl
    · exact execPhase_state_step C maxRetries task intent session policy
        step _ _

lemma runStep_halt_none (step : WorkflowStep) (ents : EntityMap) :
    (runStep C maxRetries task intent session policy step ents).halt = none →
      (runStep C maxRetries task intent session policy step ents).state.status =
        "verified" := by
  unfold runStep
  simp only []
  split
  · intro h; exact absurd h (by simp)
  · split
    · split
      · exact execPhase_halt_none C maxRetries task intent session policy
          step _ _
      · intro h; exact absurd h (by simp)
    · exact execPhase_halt_none C maxRetries task intent session policy
        step _ _

lemma runStep_halt_some (step : WorkflowStep) (ents : EntityMap) (s : String) :
    (runStep C maxRetries task intent session policy step ents).halt = some s →
      s ≠ "success" ∧
        (runStep C maxRetries task intent session policy step ents).state.status =
          "failed" := by
  unfold runStep
  simp only []
  split
  · intro h
    cases h
    exact ⟨by decide, rfl⟩
  · split
    · split
      · intro h
        rcases execPhase_halt_some C maxRetries task intent session policy
          step _ _ s h with ⟨rfl, h2⟩
        exact ⟨by decide, h2⟩
      · intro h
        cases h
        exact ⟨by decide, rfl⟩
    · intro h
      rcases execPhase_halt_some C maxRetries task intent session policy
        step _ _ s h with ⟨rfl, h2⟩
      exact ⟨by decide, h2⟩

lemma runLoop_cons_halt (step : WorkflowStep) (rest : List WorkflowStep)
    (ents : EntityMap) (s : String)
    (h : (runStep C maxRetries task intent session policy step ents).halt =
      some s) :
    runLoop C maxRetries task intent session policy (step :: rest) ents =
      { status := s,
        step_states :=
          [(runStep C maxRetries task intent session policy step ents).state],
        entities :=
          (runStep C maxRetries task intent session policy step ents).entities,
        trace :=
          (runStep C maxRetries task intent session policy step ents).events,
        execCalls :=
          (runStep C maxRetries task intent session policy step ents).execCalls,
        approvals :=
          (runStep C maxRetries task intent session policy step ents).approvals,
        inputReqs :=
          (runStep C maxRetries task intent session policy step ents).inputReqs,
        collected :=
          (runStep C maxRetries task intent session policy step ents).collected } := by
  simp only [runLoop, h]

lemma runLoop_cons_cont (step : WorkflowStep) (rest : List WorkflowStep)
    (ents : EntityMap)
    (h : (runStep C maxRetries task intent session policy step ents).halt =
      none) :
    runLoop C maxRetries task intent session policy (step :: rest) ents =
      { status :=
          (runLoop C maxRetries task intent session policy rest
            (runStep C maxRetries task intent session policy step
              ents).entities).status,
        step_states :=
          (runStep C maxRetries task intent session policy step ents).state ::
            (runLoop C maxRetries task intent session policy rest
              (runStep C maxRetries task intent session policy step
                ents).entities).step_states,
        entities :=
          (runLoop C maxRetries task intent session policy rest
            (runStep C maxRetries task intent session policy step
              ents).entities).entities,
        trace :=
          (runStep C maxRetries task intent session policy step ents).events ++
            (runLoop C maxRetries task intent session policy rest
              (runStep C maxRetries task intent session policy step
                ents).entities).trace,
        execCalls :=
          (runStep C maxRetries task intent session policy step ents).execCalls ++
            (runLoop C maxRetries task intent session policy rest
              (runStep C maxRetries task intent session policy step
                ents).entities).execCalls,
        approvals :=
          (runStep C maxRetries task intent session policy step ents).approvals ++
            (runLoop C maxRetries task intent session policy rest
              (runStep C maxRetries task intent session policy step
                ents).entities).approvals,
        inputReqs :=
          (runStep C maxRetries task intent session policy step ents).inputReqs ++
            (runLoop C maxRetries task intent session policy rest
              (runStep C maxRetries task intent session policy step
                ents).entities).inputReqs,
        collected :=
          (runStep C maxRetries task intent session policy step ents).collected ++
            (runLoop C maxRetries task intent session policy rest
              (runStep C maxRetries task intent session policy step
                ents).entities).collected } := by
  simp only [runLoop, h]

/-- The step-state list produced by the step loop is always a verified
prefix: every state but possibly the last is `"verified"`, the overall
status is `"success"` exactly when every sequenced step produced a
verified state, a non-success run ends in exactly one `"failed"` state,
and the states line up one-to-one with a prefix of the step sequence. -/
lemma runLoop_invariant :
    ∀ (steps : List WorkflowStep) (ents : EntityMap),
      (∀ st ∈ (runLoop C maxRetries task intent session policy steps
          ents).step_states.dropLast, st.status = "verified") ∧
      ((runLoop C maxRetries task intent session policy steps ents).status =
          "success" ↔
        ((runLoop C maxRetries task intent session policy steps
            ents).step_states.length = steps.length ∧
          ∀ st ∈ (runLoop C maxRetries task intent session policy steps
              ents).step_states, st.status = "verified")) ∧
      ((runLoop C maxRetries task intent session policy steps ents).status ≠
          "success" →
        ∃ stl, (runLoop C maxRetries task intent session policy steps
            ents).step_states.getLast? = some stl ∧ stl.status = "failed") ∧
      (runLoop C maxRetries task intent session policy steps
          ents).step_states.map (fun st => st.step) =
        steps.take (runLoop C maxRetries task intent session policy steps
          ents).step_states.length := by
  intro steps
  induction steps with
  | nil =>
      intro ents
      refine ⟨?_, ?_, ?_, ?_⟩ <;> simp [runLoop]
  | cons step rest ih =>
      intro ents
      cases hhalt : (runStep C maxRetries task intent session policy step
          ents).halt with
      | some s =>
          rw [runLoop_cons_halt C maxRetries task intent session policy step
            rest ents s hhalt]
          dsimp only
          obtain ⟨hs_ne, hs_failed⟩ := runStep_halt_some C maxRetries task
            intent session policy step ents s hhalt
          have hstep := runStep_state_step C maxRetries task intent session
            policy step ents
          refine ⟨?_, ?_, ?_, ?_⟩
          · simp
          · constructor
            · intro hss
              exact absurd hss hs_ne
            · rintro ⟨_, hall⟩
              have hst := hall _ (List.mem_singleton_self _)
              rw [hs_failed] at hst
              exact absurd hst (by decide)
          · intro _
            exact ⟨_, by simp, hs_failed⟩
          · simp [hstep]
      | none =>
          rw [runLoop_cons_cont C maxRetries task intent session policy step
            rest ents hhalt]
          dsimp only
          have hver := runStep_halt_none C maxRetries task intent session
            policy step ents hhalt
          have hstep := runStep_state_step C maxRetries task intent session
            policy step ents
          obtain ⟨ih1, ih2, ih3, ih4⟩ :=
            ih (runStep C maxRetries task intent session policy step
              ents).entities
          refine ⟨?_, ?_, ?_, ?_⟩
          · intro x hx
            cases hros : (runLoop C maxRetries task intent session policy rest
                (runStep C maxRetries task intent session policy step
                  ents).entities).step_states with
            | nil =>
                rw [hros] at hx
                simp at hx
            | cons a l =>
                rw [hros, List.dropLast_cons₂] at hx
                rcases List.mem_cons.mp hx with rfl | hx2
                · exact hver
                · refine ih1 x ?_
                  rw [hros]
                  exact hx2
          · constructor
            · intro hss
              obtain ⟨hlen, hall⟩ := ih2.mp hss
              refine ⟨by simp [hlen], ?_⟩
              intro x hx
              rcases List.mem_cons.mp hx with rfl | hx2
              · exact hver
              · exact hall x hx2
            · rintro ⟨hlen, hall⟩
              apply ih2.mpr
              refine ⟨by simpa using hlen, ?_⟩
              intro x hx
              exact hall x (List.mem_cons_of_mem _ hx)
          · intro hns
            obtain ⟨stl, hlast, hfail⟩ := ih3 hns
            refine ⟨stl, ?_, hfail⟩
            cases hros : (runLoop C maxRetries task intent session policy rest
                (runStep C maxRetries task intent session policy step
                  ents).entities).step_states with
            | nil =>
                rw [hros] at hlast
                simp at hlast
            | cons a l =>
                rw [List.getLast?_cons_cons]
                rw [hros] at hlast
                exact hlast
          · simp [hstep, ih4]

end RunnerProofs

/-- C9: in any run result, every step state except possibly the last is
`"verified"`, the only possible non-verified state is a final `"failed"`
one, the overall status is `"success"` exactly when every sequenced step
contributed a verified state, and the states correspond in order to a
prefix of the sequence (the run never continues past the first
irrecoverable step). -/
theorem C9_run_halts_at_first_failure (C : Collaborators) (maxRetries : Nat)
    (task intent : String) (steps : List WorkflowStep) (policy : RuleDecision)
    (session : String) (ents : EntityMap) :
    (∀ st ∈ (run C maxRetries task intent steps policy session
        ents).step_states.dropLast, st.status = "verified") ∧
    ((run C maxRetries task intent steps policy session ents).status =
        "success" ↔
      ((run C maxRetries task intent steps policy session
          ents).step_states.length = steps.length ∧
        ∀ st ∈ (run C maxRetries task intent steps policy session
            ents).step_states, st.status = "verified")) ∧
    ((run C maxRetries task intent steps policy session ents).status ≠
        "success" →
      ∃ stl, (run C maxRetries task intent steps policy session
          ents).step_states.getLast? = some stl ∧ stl.status = "failed") ∧
    (run C maxRetries task intent steps policy session
        ents).step_states.map (fun st => st.step) =
      steps.take (run C maxRetries task intent steps policy session
        ents).step_states.length :=
  runLoop_invariant C maxRetries task intent session policy steps ents

/-- Witness for C9: a clean two-step product-search run is all verified,
and a run whose verifier never passes ends in a single failed state. -/
theorem C9_run_halts_at_first_failure_witness :
    ((run oracleHappy 1 "t" "product_search" (workflowsGet "product_search")
        {} "s" []).step_states.length =
      (workflowsGet "product_search").length) ∧
    (∃ stl,
      (run oracleNeverVerifies 1 "t" "product_search"
          (workflowsGet "product_search") {} "s"
          []).step_states.getLast? = some stl ∧ stl.status = "failed") :=
  ⟨((C9_run_halts_at_first_failure oracleHappy 1 "t" "product_search"
        (workflowsGet "product_search") {} "s" []).2.1.mp (by decide)).1,
    (C9_run_halts_at_first_failure oracleNeverVerifies 1 "t" "product_search"
        (workflowsGet "product_search") {} "s" []).2.2.1 (by decide)⟩

section RunHalting

variable (C : Collaborators) (maxRetries : Nat) (task intent session : String)
  (policy : RuleDecision)

/-- Running `pre ++ post` decomposes when `pre` completes successfully:
the states, trace and instrumentation of `post` (started from the entity
map `pre` produced) are appended to those of `pre`. -/
lemma runLoop_append (pre post : List WorkflowStep) :
    ∀ ents : EntityMap,
      (runLoop C maxRetries task intent session policy pre ents).status =
          "success" →
      runLoop C maxRetries task intent session policy (pre ++ post) ents =
        { status :=
            (runLoop C maxRetries task intent session policy post
              (runLoop C maxRetries task intent session policy pre
                ents).entities).status,
          step_states :=
            (runLoop C maxRetries task intent session policy pre
              ents).step_states ++
              (runLoop C maxRetries task intent session policy post
                (runLoop C maxRetries task intent session policy pre
                  ents).entities).step_states,
          entities :=
            (runLoop C maxRetries task intent session policy post
              (runLoop C maxRetries task intent session policy pre
                ents).entities).entities,
          trace :=
            (runLoop C maxRetries task intent session policy pre ents).trace ++
              (runLoop C maxRetries task intent session policy post
                (runLoop C maxRetries task intent session policy pre
                  ents).entities).trace,
          execCalls :=
            (runLoop C maxRetries task intent session policy pre
              ents).execCalls ++
              (runLoop C maxRetries task intent session policy post
                (runLoop C maxRetries task intent session policy pre
                  ents).entities).execCalls,
          approvals :=
            (runLoop C maxRetries task intent session policy pre
              ents).approvals ++
              (runLoop C maxRetries task intent session policy post
                (runLoop C maxRetries task intent session policy pre
                  ents).entities).approvals,
          inputReqs :=
            (runLoop C maxRetries task intent session policy pre
              ents).inputReqs ++
              (runLoop C maxRetries task intent session policy post
                (runLoop C maxRetries task intent session policy pre
                  ents).entities).inputReqs,
          collected :=
            (runLoop C maxRetries task intent session policy pre
              ents).collected ++
              (runLoop C maxRetries task intent session policy post
                (runLoop C maxRetries task intent session policy pre
                  ents).entities).collected } := by
  induction pre with
  | nil =>
      intro ents _
      simp [runLoop]
  | cons step rest ih =>
      intro ents hsucc
      cases hhalt : (runStep C maxRetries task intent session policy step
          ents).halt with
      | some s =>
          rw [runLoop_cons_halt C maxRetries task intent session policy step
            rest ents s hhalt] at hsucc
          exact absurd hsucc
            (runStep_halt_some C maxRetries task intent session policy step
              ents s hhalt).1
      | none =>
          rw [runLoop_cons_cont C maxRetries task intent session policy step
            rest ents hhalt] at hsucc
          dsimp only at hsucc
          rw [List.cons_append,
            runLoop_cons_cont C maxRetries task intent session policy step
              (rest ++ post) ents hhalt,
            runLoop_cons_cont C maxRetries task intent session policy step
              rest ents hhalt,
            ih _ hsucc]
          simp

/-- Behaviour of `runStep` when input collection leaves fields genuinely missing: the
step fails with the missing-fields error, the executor is not called, and
the loop halts with `"blocked"`. -/
lemma runStep_missing (step : WorkflowStep) (ents : EntityMap)
    (h : (collectInputs C task step ents session).remaining ≠ []) :
    runStep C maxRetries task intent session policy step ents =
      { state :=
          { step := step, status := "failed", attempts := 0, last_output := "",
            verified := false,
            verification_notes := "Missing required inputs: " ++
              String.intercalate ", "
                (collectInputs C task step ents session).remaining,
            error := some ("Missing required inputs: " ++
              String.intercalate ", "
                (collectInputs C task step ents session).remaining) },
        entities := (collectInputs C task step ents session).entities,
        events := (collectInputs C task step ents session).events ++
          [verificationEvent session step.name
            { step := step, status := "failed", attempts := 0,
              last_output := "", verified := false,
              verification_notes := "Missing required inputs: " ++
                String.intercalate ", "
                  (collectInputs C task step ents session).remaining,
              error := some ("Missing required inputs: " ++
                String.intercalate ", "
                  (collectInputs C task step ents session).remaining) }],
        execCalls := [], approvals := [],
        inputReqs := (collectInputs C task step ents session).inputReqs,
        collected := (collectInputs C task step ents session).collected,
        halt := some "blocked" } := by
  unfold runStep
  simp only []
  rw [if_pos h]

/-- Behaviour of `runStep` when inputs are complete, the step requires confirmation and
the approval collaborator rejects: the step fails with
"Approval rejected.", exactly one approval request is made, the executor
is not called, and the loop halts with `"blocked"`. -/
lemma runStep_rejected (step : WorkflowStep) (ents : EntityMap)
    (hnomiss : (collectInputs C task step ents session).remaining = [])
    (hconf : step.requires_confirmation = true)
    (hrej : (C.approve ⟨task, step.name, [step.description]⟩).approved =
      false) :
    runStep C maxRetries task intent session policy step ents =
      { state :=
          { step := step, status := "failed", attempts := 0, last_output := "",
            verified := false, verification_notes := "Approval rejected.",
            error := some "Approval rejected." },
        entities := (collectInputs C task step ents session).entities,
        events := (collectInputs C task step ents session).events ++
          [{ session_id := session, step := step.name, event := "approval",
             status := "rejected",
             data := .approval
               (C.approve ⟨task, step.name, [step.description]⟩).notes },
           verificationEvent session step.name
             { step := step, status := "failed", attempts := 0,
               last_output := "", verified := false,
               verification_notes := "Approval rejected.",
               error := some "Approval rejected." }],
        execCalls := [],
        approvals := [⟨task, step.name, [step.description]⟩],
        inputReqs := (collectInputs C task step ents session).inputReqs,
        collected := (collectInputs C task step ents session).collected,
        halt := some "blocked" } := by
  unfold runStep
  simp only [hrej, Bool.false_eq_true, if_false]
  rw [if_neg (not_not_intro hnomiss), if_pos hconf]

/-- Behaviour of `runStep` when inputs are complete and the step needs no confirmation:
the retry loop runs from the freshly created step state. -/
lemma runStep_exec_noconf (step : WorkflowStep) (ents : EntityMap)
    (hnomiss : (collectInputs C task step ents session).remaining = [])
    (hconf : step.requires_confirmation = false) :
    runStep C maxRetries task intent session policy step ents =
      { state := (execPhase C maxRetries task intent session policy step
          (collectInputs C task step ents session).entities
          { step := step, status := "running" }).1,
        entities := (collectInputs C task step ents session).entities,
        events := (collectInputs C task step ents session).events ++
          (execPhase C maxRetries task intent session policy step
            (collectInputs C task step ents session).entities
            { step := step, status := "running" }).2.1,
        execCalls := (execPhase C maxRetries task intent session policy step
          (collectInputs C task step ents session).entities
          { step := step, status := "running" }).2.2.1,
        approvals := [],
        inputReqs := (collectInputs C task step ents session).inputReqs,
        collected := (collectInputs C task step ents session).collected,
        halt := (execPhase C maxRetries task intent session policy step
          (collectInputs C task step ents session).entities
          { step := step, status := "running" }).2.2.2 } := by
  unfold runStep
  simp only []
  rw [if_neg (not_not_intro hnomiss),
    if_neg (by rw [hconf]; exact Bool.false_ne_true)]

/-- Behaviour of `runStep` when inputs are complete, the step requires confirmation and
the approval collaborator approves: one approval request and event, then
the retry loop. -/
lemma runStep_exec_approved (step : WorkflowStep) (ents : EntityMap)
    (hnomiss : (collectInputs C task step ents session).remaining = [])
    (hconf : step.requires_confirmation = true)
    (happr : (C.approve ⟨task, step.name, [step.description]⟩).approved =
      true) :
    runStep C maxRetries task intent session policy step ents =
      { state := (execPhase C maxRetries task intent session policy step
          (collectInputs C task step ents session).entities
          { step := step, status := "running" }).1,
        entities := (collectInputs C task step ents session).entities,
        events := (collectInputs C task step ents session).events ++
          [{ session_id := session, step := step.name, event := "approval",
             status := "success",
             data := .approval
               (C.approve ⟨task, step.name, [step.description]⟩).notes }] ++
          (execPhase C maxRetries task intent session policy step
            (collectInputs C task step ents session).entities
            { step := step, status := "running" }).2.1,
        execCalls := (execPhase C maxRetries task intent session policy step
          (collectInputs C task step ents session).entities
          { step := step, status := "running" }).2.2.1,
        approvals := [⟨task, step.name, [step.description]⟩],
        inputReqs := (collectInputs C task step ents session).inputReqs,
        collected := (collectInputs C task step ents session).collected,
        halt := (execPhase C maxRetries task intent session policy step
          (collectInputs C task step ents session).entities
          { step := step, status := "running" }).2.2.2 } := by
  unfold runStep
  simp only [happr, if_true]
  rw [if_neg (not_not_intro hnomiss), if_pos hconf]

end RunHalting

/-! ### C1: missing required inputs -/

/-- Counterexample to C1 as stated: with the entity map
`{"order_id": ""}` (key present, value empty), an empty memory cache and a
human-input provider that returns nothing, the required field `order_id`
is still not present with a non-empty value after the single collection
attempt (the attempt was made: one input request for `order_id`), yet the
step does not fail, the executor is invoked, and the run succeeds — the
final missing check `field not in entities` tests key presence only. -/
theorem C1_counterexample :
    pyTruthy (emLookup
      (run oracleHappy 1 "t" "track_order"
        [{ name := "ORDER_STATUS", description := "Fetch order status.",
           required_tools := ["order_status_tool"],
           input_fields := ["order_id"] }] {} "s"
        [("order_id", "")]).entities "order_id") = false ∧
    (run oracleHappy 1 "t" "track_order"
      [{ name := "ORDER_STATUS", description := "Fetch order status.",
         required_tools := ["order_status_tool"],
         input_fields := ["order_id"] }] {} "s"
      [("order_id", "")]).inputReqs =
        [{ task := "t", step := "ORDER_STATUS", fields := ["order_id"] }] ∧
    (run oracleHappy 1 "t" "track_order"
      [{ name := "ORDER_STATUS", description := "Fetch order status.",
         required_tools := ["order_status_tool"],
         input_fields := ["order_id"] }] {} "s"
      [("order_id", "")]).status = "success" ∧
    (run oracleHappy 1 "t" "track_order"
      [{ name := "ORDER_STATUS", description := "Fetch order status.",
         required_tools := ["order_status_tool"],
         input_fields := ["order_id"] }] {} "s"
      [("order_id", "")]).execCalls.length = 1 ∧
    ∀ st ∈ (run oracleHappy 1 "t" "track_order"
      [{ name := "ORDER_STATUS", description := "Fetch order status.",
         required_tools := ["order_status_tool"],
         input_fields := ["order_id"] }] {} "s"
      [("order_id", "")]).step_states, st.status = "verified" := by
  decide

/-- C1 (amended): if, after the single per-step collection attempt, some
required field is still absent as a key from the entity map, the step is
finalized `"failed"` with an error naming the missing fields, the executor
is never invoked for that step, and the run halts immediately with overall
status `"blocked"`. -/
theorem C1_missing_inputs_block (C : Collaborators) (maxRetries : Nat)
    (task intent session : String) (policy : RuleDecision)
    (pre : List WorkflowStep) (step : WorkflowStep)
    (rest : List WorkflowStep) (ents : EntityMap)
    (hpre : (runLoop C maxRetries task intent session policy pre ents).status =
      "success")
    (hmiss : (collectInputs C task step
      (runLoop C maxRetries task intent session policy pre ents).entities
      session).remaining ≠ []) :
    (run C maxRetries task intent (pre ++ step :: rest) policy session
      ents).status = "blocked" ∧
    (run C maxRetries task intent (pre ++ step :: rest) policy session
      ents).step_states =
      (runLoop C maxRetries task intent session policy pre ents).step_states ++
        [{ step := step, status := "failed", attempts := 0, last_output := "",
           verified := false,
           verification_notes := "Missing required inputs: " ++
             String.intercalate ", " (collectInputs C task step
               (runLoop C maxRetries task intent session policy pre
                 ents).entities session).remaining,
           error := some ("Missing required inputs: " ++
             String.intercalate ", " (collectInputs C task step
               (runLoop C maxRetries task intent session policy pre
                 ents).entities session).remaining) }] ∧
    (run C maxRetries task intent (pre ++ step :: rest) policy session
      ents).execCalls =
      (runLoop C maxRetries task intent session policy pre ents).execCalls := by
  have hrs := runStep_missing C maxRetries task intent session policy step
    (runLoop C maxRetries task intent session policy pre ents).entities hmiss
  have hhalt : (runStep C maxRetries task intent session policy step
      (runLoop C maxRetries task intent session policy pre
        ents).entities).halt = some "blocked" := by
    rw [hrs]
  have hcons := runLoop_cons_halt C maxRetries task intent session policy step
    rest (runLoop C maxRetries task intent session policy pre ents).entities
    "blocked" hhalt
  have hdec := runLoop_append C maxRetries task intent session policy pre
    (step :: rest) ents hpre
  have hrun : run C maxRetries task intent (pre ++ step :: rest) policy
      session ents =
      runLoop C maxRetries task intent session policy (pre ++ step :: rest)
        ents := rfl
  rw [hrun, hdec, hcons, hrs]
  dsimp only
  exact ⟨rfl, rfl, by rw [List.append_nil]⟩

/-- Witness for C1 (amended): single ORDER_STATUS step, empty entity map,
provider returns nothing — the run blocks with the missing-field error and
no executor call. -/
theorem C1_missing_inputs_block_witness :
    (run oracleHappy 1 "t" "track_order"
      [{ name := "ORDER_STATUS", description := "Fetch order status.",
         required_tools := ["order_status_tool"],
         input_fields := ["order_id"] }] {} "s" []).status = "blocked" ∧
    (run oracleHappy 1 "t" "track_order"
      [{ name := "ORDER_STATUS", description := "Fetch order status.",
         required_tools := ["order_status_tool"],
         input_fields := ["order_id"] }] {} "s" []).step_states =
      [{ step := { name := "ORDER_STATUS",
                   description := "Fetch order status.",
                   required_tools := ["order_status_tool"],
                   input_fields := ["order_id"] },
         status := "failed", attempts := 0, last_output := "",
         verified := false,
         verification_notes := "Missing required inputs: order_id",
         error := some "Missing required inputs: order_id" }] ∧
    (run oracleHappy 1 "t" "track_order"
      [{ name := "ORDER_STATUS", description := "Fetch order status.",
         required_tools := ["order_status_tool"],
         input_fields := ["order_id"] }] {} "s" []).execCalls = [] := by
  have h := C1_missing_inputs_block oracleHappy 1 "t" "track_order" "s" {}
    []
    { name := "ORDER_STATUS", description := "Fetch order status.",
      required_tools := ["order_status_tool"],
      input_fields := ["order_id"] }
    [] [] (by decide) (by decide)
  simp only [List.nil_append] at h
  refine ⟨h.1, ?_, ?_⟩
  · rw [h.2.1]
    decide
  · rw [h.2.2]
    decide

/-! ### C2: confirmation gate -/

/-- C2: for a step that reaches its confirmation gate (inputs complete,
requires-confirmation set), the approval collaborator is consulted exactly
once for that step — whatever the decision, and in particular never again
from inside the retry loop: the whole per-step procedure contributes
exactly one approval request, and the run's approval stream extends the
prefix's by that one request. A negative decision moreover finalizes the
step `"failed"` with error "Approval rejected.", never invokes the
executor for that step, and halts the run with overall status
`"blocked"`. -/
theorem C2_confirmation_gate (C : Collaborators) (maxRetries : Nat)
    (task intent session : String) (policy : RuleDecision)
    (pre : List WorkflowStep) (step : WorkflowStep)
    (rest : List WorkflowStep) (ents : EntityMap)
    (hpre : (runLoop C maxRetries task intent session policy pre ents).status =
      "success")
    (hnomiss : (collectInputs C task step
      (runLoop C maxRetries task intent session policy pre ents).entities
      session).remaining = [])
    (hconf : step.requires_confirmation = true) :
    (runStep C maxRetries task intent session policy step
      (runLoop C maxRetries task intent session policy pre
        ents).entities).approvals =
      [⟨task, step.name, [step.description]⟩] ∧
    (∃ restApprovals,
      (run C maxRetries task intent (pre ++ step :: rest) policy session
        ents).approvals =
        (runLoop C maxRetries task intent session policy pre ents).approvals ++
          [⟨task, step.name, [step.description]⟩] ++ restApprovals) ∧
    ((C.approve ⟨task, step.name, [step.description]⟩).approved = false →
      (run C maxRetries task intent (pre ++ step :: rest) policy session
        ents).status = "blocked" ∧
      (run C maxRetries task intent (pre ++ step :: rest) policy session
        ents).step_states =
        (runLoop C maxRetries task intent session policy pre
          ents).step_states ++
          [{ step := step, status := "failed", attempts := 0,
             last_output := "", verified := false,
             verification_notes := "Approval rejected.",
             error := some "Approval rejected." }] ∧
      (run C maxRetries task intent (pre ++ step :: rest) policy session
        ents).execCalls =
        (runLoop C maxRetries task intent session policy pre ents).execCalls ∧
      (run C maxRetries task intent (pre ++ step :: rest) policy session
        ents).approvals =
        (runLoop C maxRetries task intent session policy pre
          ents).approvals ++ [⟨task, step.name, [step.description]⟩]) := by
  have hrun : run C maxRetries task intent (pre ++ step :: rest) policy
      session ents =
      runLoop C maxRetries task intent session policy (pre ++ step :: rest)
        ents := rfl
  have hdecomp := runLoop_append C maxRetries task intent session policy pre
    (step :: rest) ents hpre
  have hA : (runStep C maxRetries task intent session policy step
      (runLoop C maxRetries task intent session policy pre
        ents).entities).approvals =
      [⟨task, step.name, [step.description]⟩] := by
    cases hdec : (C.approve ⟨task, step.name, [step.description]⟩).approved
      with
    | false =>
        rw [runStep_rejected C maxRetries task intent session policy step
          (runLoop C maxRetries task intent session policy pre ents).entities
          hnomiss hconf hdec]
    | true =>
        rw [runStep_exec_approved C maxRetries task intent session policy step
          (runLoop C maxRetries task intent session policy pre ents).entities
          hnomiss hconf hdec]
  refine ⟨hA, ?_, ?_⟩
  · cases hhalt : (runStep C maxRetries task intent session policy step
        (runLoop C maxRetries task intent session policy pre
          ents).entities).halt with
    | some s =>
        have hcons := runLoop_cons_halt C maxRetries task intent session
          policy step rest
          (runLoop C maxRetries task intent session policy pre ents).entities
          s hhalt
        refine ⟨[], ?_⟩
        rw [hrun, hdecomp, hcons]
        dsimp only
        rw [hA]
        simp
    | none =>
        have hcons := runLoop_cons_cont C maxRetries task intent session
          policy step rest
          (runLoop C maxRetries task intent session policy pre ents).entities
          hhalt
        refine ⟨(runLoop C maxRetries task intent session policy rest
          (runStep C maxRetries task intent session policy step
            (runLoop C maxRetries task intent session policy pre
              ents).entities).entities).approvals, ?_⟩
        rw [hrun, hdecomp, hcons]
        dsimp only
        rw [hA]
        simp
  · intro hrej
    have hrs := runStep_rejected C maxRetries task intent session policy step
      (runLoop C maxRetries task intent session policy pre ents).entities
      hnomiss hconf hrej
    have hhalt : (runStep C maxRetries task intent session policy step
        (runLoop C maxRetries task intent session policy pre
          ents).entities).halt = some "blocked" := by
      rw [hrs]
    have hcons := runLoop_cons_halt C maxRetries task intent session policy
      step rest
      (runLoop C maxRetries task intent session policy pre ents).entities
      "blocked" hhalt
    rw [hrun, hdecomp, hcons, hrs]
    dsimp only
    exact ⟨rfl, rfl, by rw [List.append_nil], rfl⟩

/-- Witness for C2, both decision outcomes: an auto-approved REORDER step
whose verification fails twice still issues exactly one approval request
(the retry loop does not re-consult), and the SUPPORT step under the
rejecting provider blocks the run with no executor call and exactly one
approval request. -/
theorem C2_confirmation_gate_witness :
    (runStep oracleNeverVerifies 1 "t" "reorder" "s" {}
      { name := "REORDER", description := "Recreate the order in cart.",
        required_tools := ["reorder_tool"], requires_confirmation := true,
        input_fields := ["user_id"] }
      [("user_id", "u1")]).approvals =
      [{ task := "t", intent := "REORDER",
         notes := ["Recreate the order in cart."] }] ∧
    (runStep oracleNeverVerifies 1 "t" "reorder" "s" {}
      { name := "REORDER", description := "Recreate the order in cart.",
        required_tools := ["reorder_tool"], requires_confirmation := true,
        input_fields := ["user_id"] }
      [("user_id", "u1")]).execCalls.length = 2 ∧
    (run oracleRejects 1 "t" "support_ticket"
      [{ name := "SUPPORT", description := "Create or update a support ticket.",
         required_tools := ["support_tool"], requires_confirmation := true,
         input_fields := ["user_id", "subject", "description"] }] {} "s"
      [("user_id", "u1"), ("subject", "s1"),
        ("description", "d1")]).status = "blocked" ∧
    (run oracleRejects 1 "t" "support_ticket"
      [{ name := "SUPPORT", description := "Create or update a support ticket.",
         required_tools := ["support_tool"], requires_confirmation := true,
         input_fields := ["user_id", "subject", "description"] }] {} "s"
      [("user_id", "u1"), ("subject", "s1"),
        ("description", "d1")]).execCalls = [] ∧
    (run oracleRejects 1 "t" "support_ticket"
      [{ name := "SUPPORT", description := "Create or update a support ticket.",
         required_tools := ["support_tool"], requires_confirmation := true,
         input_fields := ["user_id", "subject", "description"] }] {} "s"
      [("user_id", "u1"), ("subject", "s1"),
        ("description", "d1")]).approvals =
      [{ task := "t", intent := "SUPPORT",
         notes := ["Create or update a support ticket."] }] ∧
    ∃ stl, (run oracleRejects 1 "t" "support_ticket"
      [{ name := "SUPPORT", description := "Create or update a support ticket.",
         required_tools := ["support_tool"], requires_confirmation := true,
         input_fields := ["user_id", "subject", "description"] }] {} "s"
      [("user_id", "u1"), ("subject", "s1"),
        ("description", "d1")]).step_states = [stl] ∧
      stl.status = "failed" ∧ stl.error = some "Approval rejected." := by
  have hA := (C2_confirmation_gate oracleNeverVerifies 1 "t" "reorder" "s" {}
    []
    { name := "REORDER", description := "Recreate the order in cart.",
      required_tools := ["reorder_tool"], requires_confirmation := true,
      input_fields := ["user_id"] }
    [] [("user_id", "u1")] (by decide) (by decide) rfl).1
  have h := C2_confirmation_gate oracleRejects 1 "t" "support_ticket" "s" {}
    []
    { name := "SUPPORT", description := "Create or update a support ticket.",
      required_tools := ["support_tool"], requires_confirmation := true,
      input_fields := ["user_id", "subject", "description"] }
    []
    [("user_id", "u1"), ("subject", "s1"), ("description", "d1")]
    (by decide) (by decide) rfl
  obtain ⟨s1, s2, s3, s4⟩ := h.2.2 (by decide)
  simp only [List.nil_append] at s1 s2 s3 s4
  have hps : (runLoop oracleRejects 1 "t" "support_ticket" "s" {}
      ([] : List WorkflowStep)
      [("user_id", "u1"), ("subject", "s1"),
        ("description", "d1")]).step_states = [] := rfl
  have hpc : (runLoop oracleRejects 1 "t" "support_ticket" "s" {}
      ([] : List WorkflowStep)
      [("user_id", "u1"), ("subject", "s1"),
        ("description", "d1")]).execCalls = [] := rfl
  have hpa : (runLoop oracleRejects 1 "t" "support_ticket" "s" {}
      ([] : List WorkflowStep)
      [("user_id", "u1"), ("subject", "s1"),
        ("description", "d1")]).approvals = [] := rfl
  rw [hps, List.nil_append] at s2
  rw [hpa, List.nil_append] at s4
  refine ⟨hA, by decide, s1, ?_, s4, ⟨_, s2, rfl, rfl⟩⟩
  rw [s3, hpc]

/-! ### C3: retry exhaustion -/

section RetryProofs

variable (C : Collaborators) (maxRetries : Nat) (task intent session : String)
  (policy : RuleDecision)

lemma collectInputs_events (step : WorkflowStep) (ents : EntityMap) :
    ∀ ev ∈ (collectInputs C task step ents session).events,
      ev.event = "input_request" := by
  unfold collectInputs
  simp only []
  split
  · intro ev hev
    simp at hev
  · intro ev hev
    simp at hev
    rw [hev]

/-- Behaviour of the retry loop when every execution fails verification:
it never verifies, uses all its attempts, makes one executor call and one
verification trace event per attempt, and chains each later call's
context to the previous failure's notes through the retry note. -/
lemma attemptLoop_allfail (step : WorkflowStep) (step_task : String)
    (allowed : Option (List String)) (ents : EntityMap)
    (hfail : ∀ call : ExecCall,
      (verifyStep C.verify step step_task (C.execute call)).is_valid =
        false) :
    ∀ (fuel attempt : Nat) (st : WorkflowStepState),
      (attemptLoop C task intent session step step_task allowed ents fuel
        attempt st).verified = false ∧
      (fuel ≠ 0 →
        (attemptLoop C task intent session step step_task allowed ents fuel
          attempt st).state.attempts = attempt + fuel) ∧
      (attemptLoop C task intent session step step_task allowed ents fuel
        attempt st).execCalls.length = fuel ∧
      (∀ c ∈ (attemptLoop C task intent session step step_task allowed ents
        fuel attempt st).execCalls, c.step_name = step.name) ∧
      (attemptLoop C task intent session step step_task allowed ents fuel
        attempt st).events.length = fuel ∧
      (∀ ev ∈ (attemptLoop C task intent session step step_task allowed ents
        fuel attempt st).events,
        ev.event = "verification" ∧ ev.step = step.name) ∧
      ((attemptLoop C task intent session step step_task allowed ents fuel
        attempt st).execCalls.head?.map (fun c => c.context) =
        if fuel = 0 then none
        else some (buildStepContext C task intent step.name
          (retryNoteOf st.error) ents)) ∧
      List.Chain' (retryChain C task intent step step_task ents)
        (attemptLoop C task intent session step step_task allowed ents fuel
          attempt st).execCalls := by
  intro fuel
  induction fuel with
  | zero =>
      intro attempt st
      refine ⟨rfl, fun h => absurd rfl h, rfl, ?_, rfl, ?_, rfl, ?_⟩
      · intro c hc
        simp [attemptLoop] at hc
      · intro ev hev
        simp [attemptLoop] at hev
      · simp [attemptLoop]
  | succ n ih =>
      intro attempt st
      simp only [attemptLoop, hfail, Bool.false_eq_true, if_false]
      obtain ⟨ih1, ih2, ih3, ih4, ih5, ih6, ih7, ih8⟩ :=
        ih (attempt + 1)
          { step := st.step, status := "retrying", attempts := attempt + 1,
            last_output :=
              (C.execute ⟨step.name, attempt, step_task,
                buildStepContext C task intent step.name
                  (retryNoteOf st.error) ents, allowed⟩).content,
            verified := false,
            verification_notes :=
              (verifyStep C.verify step step_task
                (C.execute ⟨step.name, attempt, step_task,
                  buildStepContext C task intent step.name
                    (retryNoteOf st.error) ents, allowed⟩)).notes,
            error := some
              ((verifyStep C.verify step step_task
                (C.execute ⟨step.name, attempt, step_task,
                  buildStepContext C task intent step.name
                    (retryNoteOf st.error) ents, allowed⟩)).notes) }
      refine ⟨ih1, ?_, ?_, ?_, ?_, ?_, ?_, ?_⟩
      · intro _
        cases n with
        | zero => rfl
        | succ m =>
            rw [ih2 (Nat.succ_ne_zero m)]
            omega
      · simp [ih3]
      · intro c hc
        rcases List.mem_cons.mp hc with rfl | hc2
        · rfl
        · exact ih4 c hc2
      · simp [ih5]
      · intro ev hev
        rcases List.mem_cons.mp hev with rfl | hev2
        · exact ⟨rfl, rfl⟩
        · exact ih6 ev hev2
      · simp
      · rw [List.chain'_cons']
        refine ⟨?_, ih8⟩
        intro c0 hc0
        cases n with
        | zero =>
            rw [List.length_eq_zero.mp ih3] at hc0
            simp at hc0
        | succ m =>
            have h7 := ih7
            rw [if_neg (Nat.succ_ne_zero m)] at h7
            rw [Option.mem_def] at hc0
            rw [hc0] at h7
            simp only [Option.map_some] at h7
            have hctx := Option.some.inj h7
            exact hctx

lemma execPhase_allfail (step : WorkflowStep) (ents : EntityMap)
    (st0 : WorkflowStepState)
    (hfail : ∀ call : ExecCall,
      (verifyStep C.verify step (mkStepTask step task)
        (C.execute call)).is_valid = false) :
    execPhase C maxRetries task intent session policy step ents st0 =
      ({ (attemptLoop C task intent session step (mkStepTask step task)
            (stepAllowedTools step policy) ents (maxRetries + 1) 0 st0).state
          with status := "failed" },
        (attemptLoop C task intent session step (mkStepTask step task)
          (stepAllowedTools step policy) ents (maxRetries + 1) 0 st0).events,
        (attemptLoop C task intent session step (mkStepTask step task)
          (stepAllowedTools step policy) ents (maxRetries + 1) 0
          st0).execCalls,
        some "failed") := by
  have hv := (attemptLoop_allfail C task intent session step
    (mkStepTask step task) (stepAllowedTools step policy) ents hfail
    (maxRetries + 1) 0 st0).1
  unfold execPhase
  simp only []
  rw [if_neg (by rw [hv]; exact Bool.false_ne_true)]

lemma verification_count (l1 l2 : List TraceEvent)
    (h1 : ∀ e ∈ l1, ¬ e.event = "verification")
    (h2 : ∀ e ∈ l2, e.event = "verification") :
    ((l1 ++ l2).filter (fun ev => ev.event == "verification")).length =
      l2.length := by
  rw [List.filter_append]
  have e1 : l1.filter (fun ev => ev.event == "verification") = [] := by
    rw [List.filter_eq_nil_iff]
    intro a ha
    simpa using h1 a ha
  have e2 : l2.filter (fun ev => ev.event == "verification") = l2 := by
    rw [List.filter_eq_self]
    intro a ha
    simpa using h2 a ha
  rw [e1, e2, List.nil_append]

end RetryProofs

/-- C3: a step (with complete inputs and, if needed, approval) whose every
attempt fails verification is executed exactly `max_retries + 1` times,
records that attempt count in its state, emits one verification trace
event per attempt, carries each failure's notes into the next attempt's
context as a retry note, is finalized `"failed"`, and halts the run with
overall status `"failed"` (not `"blocked"`). -/
theorem C3_retry_exhaustion (C : Collaborators) (maxRetries : Nat)
    (task intent session : String) (policy : RuleDecision)
    (pre : List WorkflowStep) (step : WorkflowStep)
    (rest : List WorkflowStep) (ents : EntityMap)
    (hpre : (runLoop C maxRetries task intent session policy pre ents).status =
      "success")
    (hnomiss : (collectInputs C task step
      (runLoop C maxRetries task intent session policy pre ents).entities
      session).remaining = [])
    (hconf : step.requires_confirmation = true →
      (C.approve ⟨task, step.name, [step.description]⟩).approved = true)
    (hfail : ∀ call : ExecCall,
      (verifyStep C.verify step (mkStepTask step task)
        (C.execute call)).is_valid = false) :
    (run C maxRetries task intent (pre ++ step :: rest) policy session
      ents).status = "failed" ∧
    (∃ stl, (run C maxRetries task intent (pre ++ step :: rest) policy
        session ents).step_states =
        (runLoop C maxRetries task intent session policy pre
          ents).step_states ++ [stl] ∧
      stl.step = step ∧ stl.status = "failed" ∧
      stl.attempts = maxRetries + 1) ∧
    (∃ calls, (run C maxRetries task intent (pre ++ step :: rest) policy
        session ents).execCalls =
        (runLoop C maxRetries task intent session policy pre
          ents).execCalls ++ calls ∧
      calls.length = maxRetries + 1 ∧
      (∀ c ∈ calls, c.step_name = step.name) ∧
      List.Chain' (retryChain C task intent step (mkStepTask step task)
        (collectInputs C task step
          (runLoop C maxRetries task intent session policy pre ents).entities
          session).entities) calls) ∧
    (∃ evs, (run C maxRetries task intent (pre ++ step :: rest) policy
        session ents).trace =
        (runLoop C maxRetries task intent session policy pre ents).trace ++
          evs ∧
      (evs.filter (fun ev => ev.event == "verification")).length =
        maxRetries + 1) := by
  have hao := attemptLoop_allfail C task intent session step
    (mkStepTask step task) (stepAllowedTools step policy)
    (collectInputs C task step
      (runLoop C maxRetries task intent session policy pre ents).entities
      session).entities hfail (maxRetries + 1) 0
    { step := step, status := "running" }
  have hep := execPhase_allfail C maxRetries task intent session policy step
    (collectInputs C task step
      (runLoop C maxRetries task intent session policy pre ents).entities
      session).entities { step := step, status := "running" } hfail
  have hstep0 : (attemptLoop C task intent session step (mkStepTask step task)
      (stepAllowedTools step policy)
      (collectInputs C task step
        (runLoop C maxRetries task intent session policy pre ents).entities
        session).entities (maxRetries + 1) 0
      { step := step, status := "running" }).state.step = step :=
    attemptLoop_state_step C task intent session step _ _ _ _ _ _
  have hattempts : (attemptLoop C task intent session step
      (mkStepTask step task) (stepAllowedTools step policy)
      (collectInputs C task step
        (runLoop C maxRetries task intent session policy pre ents).entities
        session).entities (maxRetries + 1) 0
      { step := step, status := "running" }).state.attempts =
      maxRetries + 1 := by
    rw [hao.2.1 (Nat.succ_ne_zero maxRetries)]
    omega
  have hrun : run C maxRetries task intent (pre ++ step :: rest) policy
      session ents =
      runLoop C maxRetries task intent session policy (pre ++ step :: rest)
        ents := rfl
  have hdec := runLoop_append C maxRetries task intent session policy pre
    (step :: rest) ents hpre
  have hinputev := collectInputs_events C task session step
    (runLoop C maxRetries task intent session policy pre ents).entities
  cases hc : step.requires_confirmation with
  | false =>
      have hrs := runStep_exec_noconf C maxRetries task intent session policy
        step (runLoop C maxRetries task intent session policy pre
          ents).entities hnomiss hc
      rw [hep] at hrs
      have hhalt : (runStep C maxRetries task intent session policy step
          (runLoop C maxRetries task intent session policy pre
            ents).entities).halt = some "failed" := by
        rw [hrs]
      have hcons := runLoop_cons_halt C maxRetries task intent session policy
        step rest
        (runLoop C maxRetries task intent session policy pre ents).entities
        "failed" hhalt
      rw [hrun, hdec, hcons, hrs]
      dsimp only
      refine ⟨rfl, ⟨_, rfl, hstep0, rfl, hattempts⟩,
        ⟨_, rfl, hao.2.2.1, hao.2.2.2.1, hao.2.2.2.2.2.2.2⟩,
        ⟨_, rfl, ?_⟩⟩
      refine (verification_count _ _ ?_
        (fun e he => (hao.2.2.2.2.2.1 e he).1)).trans hao.2.2.2.2.1
      intro e he
      rw [hinputev e he]
      decide
  | true =>
      have hrs := runStep_exec_approved C maxRetries task intent session
        policy step (runLoop C maxRetries task intent session policy pre
          ents).entities hnomiss hc (hconf hc)
      rw [hep] at hrs
      have hhalt : (runStep C maxRetries task intent session policy step
          (runLoop C maxRetries task intent session policy pre
            ents).entities).halt = some "failed" := by
        rw [hrs]
      have hcons := runLoop_cons_halt C maxRetries task intent session policy
        step rest
        (runLoop C maxRetries task intent session policy pre ents).entities
        "failed" hhalt
      rw [hrun, hdec, hcons, hrs]
      dsimp only
      refine ⟨rfl, ⟨_, rfl, hstep0, rfl, hattempts⟩,
        ⟨_, rfl, hao.2.2.1, hao.2.2.2.1, hao.2.2.2.2.2.2.2⟩,
        ⟨_, rfl, ?_⟩⟩
      refine (verification_count _ _ ?_
        (fun e he => (hao.2.2.2.2.2.1 e he).1)).trans hao.2.2.2.2.1
      intro e he
      rcases List.mem_append.mp he with he1 | he2
      · rw [hinputev e he1]
        decide
      · rw [List.mem_singleton.mp he2]
        simp

/-- Witness for C3: `max_retries = 1`, a PRICING step whose verification
always fails — two executor calls, attempt count 2, two verification
trace events, run status `"failed"`. -/
theorem C3_retry_exhaustion_witness :
    (run oracleNeverVerifies 1 "t" "purchase"
      [{ name := "PRICING", description := "d",
         required_tools := ["pricing_tool", "promo_tool"] }] {} "s"
      []).status = "failed" ∧
    (∃ stl, (run oracleNeverVerifies 1 "t" "purchase"
        [{ name := "PRICING", description := "d",
           required_tools := ["pricing_tool", "promo_tool"] }] {} "s"
        []).step_states = [stl] ∧
      stl.status = "failed" ∧ stl.attempts = 2) ∧
    (run oracleNeverVerifies 1 "t" "purchase"
      [{ name := "PRICING", description := "d",
         required_tools := ["pricing_tool", "promo_tool"] }] {} "s"
      []).execCalls.length = 2 ∧
    ((run oracleNeverVerifies 1 "t" "purchase"
      [{ name := "PRICING", description := "d",
         required_tools := ["pricing_tool", "promo_tool"] }] {} "s"
      []).trace.filter (fun ev => ev.event == "verification")).length = 2 := by
  have h := C3_retry_exhaustion oracleNeverVerifies 1 "t" "purchase" "s" {}
    []
    { name := "PRICING", description := "d",
      required_tools := ["pricing_tool", "promo_tool"] }
    [] [] (by decide) (by decide) (fun hc => absurd hc (by decide))
    (fun call => rfl)
  simp only [List.nil_append] at h
  obtain ⟨h1, ⟨stl, hst, _, hstat, hatt⟩, ⟨calls, hcalls, hlen, _, _⟩,
    ⟨evs, hevs, hcount⟩⟩ := h
  have hpe : (runLoop oracleNeverVerifies 1 "t" "purchase" "s" {} ([] :
      List WorkflowStep) []).step_states = [] := rfl
  have hpc : (runLoop oracleNeverVerifies 1 "t" "purchase" "s" {} ([] :
      List WorkflowStep) []).execCalls = [] := rfl
  have hpt : (runLoop oracleNeverVerifies 1 "t" "purchase" "s" {} ([] :
      List WorkflowStep) []).trace = [] := rfl
  rw [hpe, List.nil_append] at hst
  rw [hpc, List.nil_append] at hcalls
  rw [hpt, List.nil_append] at hevs
  refine ⟨h1, ⟨stl, hst, hstat, hatt⟩, ?_, ?_⟩
  · rw [hcalls, hlen]
  · rw [hevs, hcount]

/-! ### C10: entity-map frame property -/

section FrameProofs

variable (C : Collaborators) (maxRetries : Nat) (task intent session : String)
  (policy : RuleDecision)

lemma applyCollected_append (m : EntityMap) (l1 l2 : List CollectedEntry) :
    applyCollected m (l1 ++ l2) = applyCollected (applyCollected m l1) l2 :=
  List.foldl_append _ _ _ _

lemma collectPhase1_spec (flds : List String) :
    ∀ (ents : EntityMap) (missing : List String)
      (col : List CollectedEntry),
      ∃ newCol,
        (collectPhase1 C flds ents missing col).2.2 = col ++ newCol ∧
        (collectPhase1 C flds ents missing col).1 =
          applyCollected ents newCol ∧
        ∀ e ∈ newCol, e.value ≠ "" ∧
          e.source = CollectedSource.cache ∧
          C.getCachedValue e.key = some e.value := by
  induction flds with
  | nil =>
      intro ents missing col
      exact ⟨[], by simp [collectPhase1], rfl, by simp⟩
  | cons fld rest ih =>
      intro ents missing col
      simp only [collectPhase1]
      split
      · exact ih ents missing col
      · split
        · rename_i v hv
          split
          · exact ih ents (missing ++ [fld]) col
          · rename_i hne
            obtain ⟨newCol, h1, h2, h3⟩ :=
              ih (emInsert ents fld v) missing
                (col ++ [⟨CollectedSource.cache, fld, v⟩])
            refine ⟨⟨CollectedSource.cache, fld, v⟩ :: newCol, ?_, ?_, ?_⟩
            · rw [h1, List.append_assoc]
              rfl
            · rw [h2]
              rfl
            · intro e he
              rcases List.mem_cons.mp he with rfl | he2
              · exact ⟨hne, rfl, by assumption⟩
              · exact h3 e he2
        · exact ih ents (missing ++ [fld]) col

lemma applyProvided_spec (provided : List (String × String)) :
    ∀ (ents : EntityMap) (col : List CollectedEntry),
      ∃ newCol,
        (applyProvided provided ents col).2 = col ++ newCol ∧
        (applyProvided provided ents col).1 = applyCollected ents newCol ∧
        ∀ e ∈ newCol, e.value ≠ "" ∧
          e.source = CollectedSource.human ∧
          (e.key, e.value) ∈ provided := by
  induction provided with
  | nil =>
      intro ents col
      exact ⟨[], by simp [applyProvided], rfl, by simp⟩
  | cons p rest ih =>
      intro ents col
      obtain ⟨fld, v⟩ := p
      simp only [applyProvided]
      split
      · rename_i hv
        obtain ⟨newCol, h1, h2, h3⟩ := ih ents col
        refine ⟨newCol, h1, h2, ?_⟩
        intro e he
        obtain ⟨he1, he2, he3⟩ := h3 e he
        exact ⟨he1, he2, List.mem_cons_of_mem _ he3⟩
      · rename_i hv
        obtain ⟨newCol, h1, h2, h3⟩ :=
          ih (emInsert ents fld v) (col ++ [⟨CollectedSource.human, fld, v⟩])
        refine ⟨⟨CollectedSource.human, fld, v⟩ :: newCol, ?_, ?_, ?_⟩
        · rw [h1, List.append_assoc]
          rfl
        · rw [h2]
          rfl
        · intro e he
          rcases List.mem_cons.mp he with rfl | he2
          · exact ⟨hv, rfl, List.mem_cons_self _ _⟩
          · obtain ⟨he1, he2, he3⟩ := h3 e he2
            exact ⟨he1, he2, List.mem_cons_of_mem _ he3⟩

lemma collectInputs_spec (step : WorkflowStep) (ents : EntityMap) :
    (collectInputs C task step ents session).entities =
      applyCollected ents (collectInputs C task step ents session).collected ∧
    ∀ e ∈ (collectInputs C task step ents session).collected,
      e.value ≠ "" ∧
      (e.source = CollectedSource.cache →
        C.getCachedValue e.key = some e.value) ∧
      (e.source = CollectedSource.human →
        ∃ req ∈ (collectInputs C task step ents session).inputReqs,
          (e.key, e.value) ∈ C.requestInputs req) := by
  obtain ⟨col1, hc1, hc2, hc3⟩ :=
    collectPhase1_spec C step.input_fields ents [] []
  rw [List.nil_append] at hc1
  unfold collectInputs
  simp only []
  split
  · dsimp only
    refine ⟨by rw [hc1, hc2], ?_⟩
    intro e he
    rw [hc1] at he
    obtain ⟨h1, h2, h3⟩ := hc3 e he
    refine ⟨h1, fun _ => h3, fun hh => ?_⟩
    rw [h2] at hh
    cases hh
  · dsimp only
    obtain ⟨col2, hp1, hp2, hp3⟩ :=
      applyProvided_spec
        (C.requestInputs ⟨task, step.name,
          (collectPhase1 C step.input_fields ents [] []).2.1, ""⟩)
        (collectPhase1 C step.input_fields ents [] []).1
        (collectPhase1 C step.input_fields ents [] []).2.2
    refine ⟨?_, ?_⟩
    · rw [hp1, hp2, hc2, hc1, applyCollected_append]
    · intro e he
      rw [hp1, hc1] at he
      rcases List.mem_append.mp he with he1 | he2
      · obtain ⟨h1, h2, h3⟩ := hc3 e he1
        refine ⟨h1, fun _ => h3, fun hh => ?_⟩
        rw [h2] at hh
        cases hh
      · obtain ⟨h1, h2, h3⟩ := hp3 e he2
        refine ⟨h1, fun hh => ?_, fun _ => ?_⟩
        · rw [h2] at hh
          cases hh
        · exact ⟨⟨task, step.name,
            (collectPhase1 C step.input_fields ents [] []).2.1, ""⟩,
            List.mem_singleton_self _, h3⟩

lemma runStep_collect_fields (step : WorkflowStep) (ents : EntityMap) :
    (runStep C maxRetries task intent session policy step ents).entities =
      (collectInputs C task step ents session).entities ∧
    (runStep C maxRetries task intent session policy step ents).collected =
      (collectInputs C task step ents session).collected ∧
    (runStep C maxRetries task intent session policy step ents).inputReqs =
      (collectInputs C task step ents session).inputReqs := by
  unfold runStep
  simp only []
  split
  · exact ⟨rfl, rfl, rfl⟩
  · split
    · split
      · exact ⟨rfl, rfl, rfl⟩
      · exact ⟨rfl, rfl, rfl⟩
    · exact ⟨rfl, rfl, rfl⟩

lemma runLoop_frame :
    ∀ (steps : List WorkflowStep) (ents : EntityMap),
      (runLoop C maxRetries task intent session policy steps ents).entities =
        applyCollected ents
          (runLoop C maxRetries task intent session policy steps
            ents).collected ∧
      ∀ e ∈ (runLoop C maxRetries task intent session policy steps
          ents).collected,
        e.value ≠ "" ∧
        (e.source = CollectedSource.cache →
          C.getCachedValue e.key = some e.value) ∧
        (e.source = CollectedSource.human →
          ∃ req ∈ (runLoop C maxRetries task intent session policy steps
              ents).inputReqs,
            (e.key, e.value) ∈ C.requestInputs req) := by
  intro steps
  induction steps with
  | nil =>
      intro ents
      exact ⟨rfl, by simp [runLoop]⟩
  | cons step rest ih =>
      intro ents
      obtain ⟨hso1, hso2, hso3⟩ :=
        runStep_collect_fields C maxRetries task intent session policy step
          ents
      obtain ⟨hci1, hci2⟩ := collectInputs_spec C task session step ents
      cases hhalt : (runStep C maxRetries task intent session policy step
          ents).halt with
      | some s =>
          rw [runLoop_cons_halt C maxRetries task intent session policy step
            rest ents s hhalt]
          dsimp only
          refine ⟨by rw [hso1, hso2, hci1], ?_⟩
          intro e he
          rw [hso2] at he
          obtain ⟨h1, h2, h3⟩ := hci2 e he
          refine ⟨h1, h2, fun hh => ?_⟩
          obtain ⟨req, hreq, hmem⟩ := h3 hh
          exact ⟨req, by rw [hso3]; exact hreq, hmem⟩
      | none =>
          rw [runLoop_cons_cont C maxRetries task intent session policy step
            rest ents hhalt]
          dsimp only
          obtain ⟨ih1, ih2⟩ :=
            ih (runStep C maxRetries task intent session policy step
              ents).entities
          refine ⟨?_, ?_⟩
          · rw [applyCollected_append, ih1, hso2, hso1, hci1]
          · intro e he
            rcases List.mem_append.mp he with he1 | he2
            · rw [hso2] at he1
              obtain ⟨h1, h2, h3⟩ := hci2 e he1
              refine ⟨h1, h2, fun hh => ?_⟩
              obtain ⟨req, hreq, hmem⟩ := h3 hh
              refine ⟨req, List.mem_append_left _ ?_, hmem⟩
              rw [hso3]
              exact hreq
            · obtain ⟨h1, h2, h3⟩ := ih2 e he2
              refine ⟨h1, h2, fun hh => ?_⟩
              obtain ⟨req, hreq, hmem⟩ := h3 hh
              exact ⟨req, List.mem_append_right _ hreq, hmem⟩

end FrameProofs

/-- C10: the run never mutates the caller's entity dictionary (it operates
on a copy; in this embedding `run` is a pure function of the input map)
and the entity map in the result is exactly the caller's map updated, in
order, with the values collected during the run: each collected value is
non-empty and is either a memory-cache hit or part of a human-input
provider response made during the run. -/
theorem C10_entities_pure_update (C : Collaborators) (maxRetries : Nat)
    (task intent : String) (steps : List WorkflowStep)
    (policy : RuleDecision) (session : String) (ents : EntityMap) :
    (run C maxRetries task intent steps policy session ents).entities =
      applyCollected ents
        (run C maxRetries task intent steps policy session ents).collected ∧
    ∀ e ∈ (run C maxRetries task intent steps policy session ents).collected,
      e.value ≠ "" ∧
      (e.source = CollectedSource.cache →
        C.getCachedValue e.key = some e.value) ∧
      (e.source = CollectedSource.human →
        ∃ req ∈ (run C maxRetries task intent steps policy session
            ents).inputReqs,
          (e.key, e.value) ∈ C.requestInputs req) :=
  runLoop_frame C maxRetries task intent session policy steps ents

/-- Witness for C10: a provider that returns `user_id` lets the CART-like
step proceed, and the returned entity map is the caller's map plus exactly
the collected binding. -/
theorem C10_entities_pure_update_witness :
    ((run { oracleHappy with
        requestInputs := fun _ => [("user_id", "u42")] } 1 "t" "purchase"
      [{ name := "CART", description := "d",
         required_tools := ["cart_add_tool"],
         input_fields := ["user_id"] }] {} "s"
      [("color", "red")]).entities =
      applyCollected [("color", "red")]
        (run { oracleHappy with
            requestInputs := fun _ => [("user_id", "u42")] } 1 "t" "purchase"
          [{ name := "CART", description := "d",
             required_tools := ["cart_add_tool"],
             input_fields := ["user_id"] }] {} "s"
          [("color", "red")]).collected) ∧
    ∀ e ∈ (run { oracleHappy with
        requestInputs := fun _ => [("user_id", "u42")] } 1 "t" "purchase"
      [{ name := "CART", description := "d",
         required_tools := ["cart_add_tool"],
         input_fields := ["user_id"] }] {} "s"
      [("color", "red")]).collected, e.value ≠ "" :=
  ⟨(C10_entities_pure_update
      { oracleHappy with requestInputs := fun _ => [("user_id", "u42")] }
      1 "t" "purchase"
      [{ name := "CART", description := "d",
         required_tools := ["cart_add_tool"],
         input_fields := ["user_id"] }] {} "s" [("color", "red")]).1,
    fun e he =>
      ((C10_entities_pure_update
          { oracleHappy with requestInputs := fun _ => [("user_id", "u42")] }
          1 "t" "purchase"
          [{ name := "CART", description := "d",
             required_tools := ["cart_add_tool"],
             input_fields := ["user_id"] }] {} "s"
          [("color", "red")]).2 e he).1⟩

end Commerce
